import Mathlib

/-!
Verification development for the two-room study game (Game_Build_Logics).

Shallow embedding conventions:
* Python floats are modelled as exact rationals.
* Every comparison of a Euclidean distance with a nonnegative threshold,
  written in the source as sqrt(dx**2 + dy**2) < c, is embedded as the
  equivalent squared comparison dx^2 + dy^2 < c^2 (both sides nonnegative,
  squaring is monotone).  All distance-valued quantities in this file are
  therefore squared distances, and every threshold appears squared.
* The float unit vector (dx/dist, dy/dist) produced by the source when it
  normalises a direction is abstracted as a parameter
  u : Rat -> Rat -> Rat x Rat supplied to the step functions; every theorem
  quantifies over it.
* Calls to the random generator (per enemy jitter, the 30 percent retry
  draw, the random heading) are abstracted as explicit inputs, one record
  per alive enemy processed, exactly where the source consumes randomness.
* The pygame event queue of a tick is abstracted as a record of booleans,
  processed in a fixed order compatible with the source event loop.
-/

namespace BAM

/-- Squared Euclidean distance between two points. -/
def dist2 (x1 y1 x2 y2 : ℚ) : ℚ := (x1 - x2)^2 + (y1 - y2)^2

/-! Game constants from game_engine.py. -/

def PLAYER_SIZE : ℚ := 30
def NPC_SIZE : ℚ := 24
def ENEMY_SIZE : ℚ := 30
def OBSTACLE_SIZE : ℚ := 40
def FPS : ℕ := 30
def MAX_HEALTH : ℚ := 100
def ENEMY_DAMAGE : ℚ := 20
def RESOURCE_HEAL : ℚ := 10
def ENEMY_DETECTION_RADIUS : ℚ := 250
def ATTACK_RADIUS : ℚ := 60
def PLAYER_DAMAGE : ℚ := 100
def NPC_DAMAGE : ℚ := 20
def PLAYER_SPEED : ℚ := 4
def NPC_SPEED : ℚ := 5/2

inductive PlayerAction where
  | idle
  | move
  | attack
deriving DecidableEq, Repr

inductive NPCEmotion where
  | anticipation
  | happiness
  | fear
  | anger
  | surprise
  | sadness
deriving DecidableEq, Repr

inductive NPCReaction where
  | follow
  | notify_resource
  | notify_danger
  | attack_enemy
  | notify_surprise
  | provide_healing
deriving DecidableEq, Repr

inductive GState where
  | start_screen
  | playing
  | completed
deriving DecidableEq, Repr

/-- One enemy record, fields as in Game.reset. -/
structure Enemy where
  x : ℚ
  y : ℚ
  speed : ℚ
  alive : Bool
  room : ℕ
  health : ℚ
deriving DecidableEq, Repr

/-- One resource record, fields as in Game.reset. -/
structure ResourceE where
  x : ℚ
  y : ℚ
  collected : Bool
  room : ℕ
deriving DecidableEq, Repr

/-- The player record, fields as in Game.reset. -/
structure PlayerS where
  x : ℚ
  y : ℚ
  health : ℚ
  action : PlayerAction
  speed : ℚ
  resources_collected : ℕ
  enemies_killed : ℕ
deriving DecidableEq, Repr

/-- The companion record, fields as in Game.reset. -/
structure NpcS where
  x : ℚ
  y : ℚ
  emotion : NPCEmotion
  emotion_lagged : NPCEmotion
  reaction : NPCReaction
  speed : ℚ
  attack_cooldown : ℕ
deriving DecidableEq, Repr

/-- An axis-aligned rectangle (rooms, the exit zone). -/
structure Rect where
  x : ℚ
  y : ℚ
  width : ℚ
  height : ℚ
deriving DecidableEq, Repr

/-- The door record; the source field name open is a Lean keyword, renamed
isOpen. -/
structure Door where
  x : ℚ
  y : ℚ
  width : ℚ
  height : ℚ
  isOpen : Bool
deriving DecidableEq, Repr

/-- The mutable state of Game that the simulation core reads and writes.
Rendering-only fields are omitted. -/
structure Game where
  player : PlayerS
  npc : NpcS
  enemies : List Enemy
  resources : List ResourceE
  room1 : Rect
  room2 : Rect
  obstacles1 : List (ℚ × ℚ)
  obstacles2 : List (ℚ × ℚ)
  door : Door
  exitZone : Rect
  current_room : ℕ
  resources_collected : ℕ
  enemies_killed : ℕ
  door_unlock_effect : Bool
  lagged_player_action : PlayerAction
  state : GState
  frame : ℕ
  game_time_limit : ℕ
  debug_mode : Bool
  last_room_transition : ℚ
  running : Bool
deriving DecidableEq, Repr

/-- Obstacle list of the current room, source expression
self.obstacles[self.current_room]. -/
def Game.obstaclesOf (g : Game) : List (ℚ × ℚ) :=
  if g.current_room = 1 then g.obstacles1 else g.obstacles2

/-- Rectangle of the current room, source expression
self.rooms[self.current_room]. -/
def Game.roomOf (g : Game) : Rect :=
  if g.current_room = 1 then g.room1 else g.room2

/-- Game.is_valid_move: a position is valid when no obstacle center of the
current room is strictly closer than (OBSTACLE_SIZE + size) / 2. -/
def is_valid_move (g : Game) (x y size : ℚ) : Bool :=
  g.obstaclesOf.all fun o =>
    decide (((OBSTACLE_SIZE + size) / 2)^2 ≤ dist2 x y o.1 o.2)

/-- Alive enemies of the current room, the filter used by
Game.get_nearest_enemy_distance. -/
def aliveEnemiesInRoom (g : Game) : List Enemy :=
  g.enemies.filter fun e => e.room == g.current_room && e.alive

/-- Uncollected resources of the current room, the filter used by
Game.get_nearest_resource_distance. -/
def uncollectedResourcesInRoom (g : Game) : List ResourceE :=
  g.resources.filter fun r => r.room == g.current_room && !r.collected

/-- Game.get_nearest_enemy_distance, in squared form: minimum squared player
distance over alive enemies of the current room, sentinel 1000^2 when none. -/
def get_nearest_enemy_distance2 (g : Game) : ℚ :=
  match (aliveEnemiesInRoom g).map (fun e => dist2 g.player.x g.player.y e.x e.y) with
  | [] => 1000^2
  | d :: ds => ds.foldl min d

/-- Game.get_nearest_resource_distance, in squared form. -/
def get_nearest_resource_distance2 (g : Game) : ℚ :=
  match (uncollectedResourcesInRoom g).map (fun r => dist2 g.player.x g.player.y r.x r.y) with
  | [] => 1000^2
  | d :: ds => ds.foldl min d

/-- RuleBasedEmotionSystem.determine_emotion, translated statement by
statement: a default followed by successive conditional overwrites.
Distance-valued arguments are squared distances, thresholds squared. -/
def determine_emotion (player_health enemy_proximity2 resource_proximity2 : ℚ)
    (lagged_player_action : PlayerAction) (level : ℕ)
    (player_x player_y npc_x npc_y : ℚ)
    (resources_collected enemies_killed : ℕ)
    (npc_emotion_lagged : NPCEmotion)
    (current_player_action : PlayerAction) : NPCEmotion :=
  let emotion := NPCEmotion.anticipation
  let emotion := if resource_proximity2 < 150^2 then NPCEmotion.happiness else emotion
  let emotion := if enemy_proximity2 < 125^2 then NPCEmotion.fear else emotion
  let emotion := if enemy_proximity2 < 60^2 then NPCEmotion.anger else emotion
  let emotion :=
    if current_player_action = PlayerAction.attack ∧
        dist2 player_x player_y npc_x npc_y < 60^2 then
      NPCEmotion.surprise
    else emotion
  let emotion := if player_health ≤ 30 then NPCEmotion.sadness else emotion
  emotion

/-- The priority-chain formulation of the rule strategy, written from the
claim text: later source checks become earlier chain branches. -/
def ruleEmotionSpec (player_health enemy_proximity2 resource_proximity2 : ℚ)
    (player_x player_y npc_x npc_y : ℚ)
    (current_player_action : PlayerAction) : NPCEmotion :=
  if player_health ≤ 30 then NPCEmotion.sadness
  else if current_player_action = PlayerAction.attack ∧
      dist2 player_x player_y npc_x npc_y < 60^2 then NPCEmotion.surprise
  else if enemy_proximity2 < 60^2 then NPCEmotion.anger
  else if enemy_proximity2 < 125^2 then NPCEmotion.fear
  else if resource_proximity2 < 150^2 then NPCEmotion.happiness
  else NPCEmotion.anticipation

/-- Game.update_npc_reaction: the fixed emotion to reaction table. -/
def reactionOf : NPCEmotion → NPCReaction
  | NPCEmotion.anticipation => NPCReaction.follow
  | NPCEmotion.happiness => NPCReaction.notify_resource
  | NPCEmotion.fear => NPCReaction.notify_danger
  | NPCEmotion.anger => NPCReaction.attack_enemy
  | NPCEmotion.surprise => NPCReaction.notify_surprise
  | NPCEmotion.sadness => NPCReaction.provide_healing

/-- The snapshot handed to the emotion strategy each tick, one field per
positional argument of determine_emotion. -/
structure EmotionArgs where
  player_health : ℚ
  enemy_proximity2 : ℚ
  resource_proximity2 : ℚ
  lagged_player_action : PlayerAction
  level : ℕ
  player_x : ℚ
  player_y : ℚ
  npc_x : ℚ
  npc_y : ℚ
  resources_collected : ℕ
  enemies_killed : ℕ
  npc_emotion_lagged : NPCEmotion
  current_player_action : PlayerAction

/-- The rule-based strategy as a snapshot function. -/
def ruleBasedEmotion (a : EmotionArgs) : NPCEmotion :=
  determine_emotion a.player_health a.enemy_proximity2 a.resource_proximity2
    a.lagged_player_action a.level a.player_x a.player_y a.npc_x a.npc_y
    a.resources_collected a.enemies_killed a.npc_emotion_lagged a.current_player_action

/-- Game.update_npc_emotion: save the lagged emotion, call the strategy on
the snapshot, store the new emotion and its derived reaction. -/
def update_npc_emotion (es : EmotionArgs → NPCEmotion) (g : Game) : Game :=
  let lag := g.npc.emotion
  let args : EmotionArgs :=
    { player_health := g.player.health
      enemy_proximity2 := get_nearest_enemy_distance2 g
      resource_proximity2 := get_nearest_resource_distance2 g
      lagged_player_action := g.lagged_player_action
      level := g.current_room
      player_x := g.player.x
      player_y := g.player.y
      npc_x := g.npc.x
      npc_y := g.npc.y
      resources_collected := g.player.resources_collected
      enemies_killed := g.player.enemies_killed
      npc_emotion_lagged := lag
      current_player_action := g.player.action }
  let e := es args
  { g with npc := { g.npc with emotion := e, emotion_lagged := lag, reaction := reactionOf e } }

/-- One enemy under Game.check_attack: damaged when alive, in the current
room and within the attack radius; the Bool reports a kill this pass. -/
def attackEnemy (p : PlayerS) (room : ℕ) (e : Enemy) : Enemy × Bool :=
  if e.room == room && e.alive && decide (dist2 p.x p.y e.x e.y < ATTACK_RADIUS^2) then
    let h := e.health - PLAYER_DAMAGE
    if h ≤ 0 then ({ e with health := h, alive := false }, true)
    else ({ e with health := h }, false)
  else (e, false)

/-- Game.check_attack: when the player action is attack, every enemy is
processed by attackEnemy and both kill counters advance by the number of
kills.  The source increments the counters inside the loop; since the loop
conditions never read them, the net effect is identical. -/
def check_attack (g : Game) : Game :=
  if g.player.action = PlayerAction.attack then
    let res := g.enemies.map (attackEnemy g.player g.current_room)
    let kills := (res.filter (fun p => p.2)).length
    { g with
      enemies := res.map (fun p => p.1),
      player := { g.player with enemies_killed := g.player.enemies_killed + kills },
      enemies_killed := g.enemies_killed + kills }
  else g

/-- Index, record and squared npc distance of the nearest alive enemy of
the current room; strict comparison keeps the first minimiser, as in the
source loop of the ATTACK_ENEMY branch. -/
def nearestAliveEnemy (g : Game) : Option (ℕ × Enemy × ℚ) :=
  g.enemies.enum.foldl
    (fun acc p =>
      if p.2.room == g.current_room && p.2.alive then
        let d2 := dist2 g.npc.x g.npc.y p.2.x p.2.y
        match acc with
        | none => some (p.1, p.2, d2)
        | some q => if d2 < q.2.2 then some (p.1, p.2, d2) else acc
      else acc)
    none

/-- Outcome of the reaction branch of Game.update_npc_position: tentative
npc position, the moved flag, and the side effects on player, enemies,
global kill counter and attack cooldown. -/
structure NpcStepOut where
  nx : ℚ
  ny : ℚ
  moved : Bool
  player : PlayerS
  enemies : List Enemy
  killsDelta : ℕ
  cooldown : ℕ
deriving Repr

/-- The reaction branches of Game.update_npc_position, with the already
decremented cooldown cd.  The source float unit vectors dx/dist, dy/dist
appear as u dx dy. -/
def npcBranch (u : ℚ → ℚ → ℚ × ℚ) (g : Game) (cd : ℕ) : NpcStepOut :=
  let nx := g.npc.x
  let ny := g.npc.y
  let sp := g.npc.speed
  let stay : NpcStepOut :=
    { nx := nx, ny := ny, moved := false, player := g.player,
      enemies := g.enemies, killsDelta := 0, cooldown := cd }
  match g.npc.reaction with
  | NPCReaction.follow =>
    let dx := g.player.x - nx
    let dy := g.player.y - ny
    let d2 := dx^2 + dy^2
    if d2 > 0 then
      let uv := u dx dy
      if d2 > 70^2 then
        { stay with nx := nx + uv.1 * sp * (3/2), ny := ny + uv.2 * sp * (3/2), moved := true }
      else if d2 < 40^2 then
        { stay with nx := nx + uv.1 * sp * (-(1/2)), ny := ny + uv.2 * sp * (-(1/2)), moved := true }
      else if d2 > 60^2 then
        if d2 > 65^2 then
          { stay with nx := nx + uv.1 * sp, ny := ny + uv.2 * sp, moved := true }
        else stay
      else stay
    else stay
  | NPCReaction.notify_resource =>
    let dx := g.player.x - nx
    let dy := g.player.y - ny
    let d2 := dx^2 + dy^2
    if d2 > 90^2 then
      let uv := u dx dy
      { stay with nx := nx + uv.1 * sp * (6/5), ny := ny + uv.2 * sp * (6/5), moved := true }
    else stay
  | NPCReaction.notify_danger =>
    let dx := g.player.x - nx
    let dy := g.player.y - ny
    let d2 := dx^2 + dy^2
    if d2 > 90^2 then
      let uv := u dx dy
      { stay with nx := nx + uv.1 * sp * (6/5), ny := ny + uv.2 * sp * (6/5), moved := true }
    else stay
  | NPCReaction.attack_enemy =>
    match nearestAliveEnemy g with
    | none => stay
    | some q =>
      let i := q.1
      let e := q.2.1
      let md2 := q.2.2
      if md2 > 65^2 then
        let ddx := e.x - nx
        let ddy := e.y - ny
        let dd2 := ddx^2 + ddy^2
        if dd2 > 0 then
          let uv := u ddx ddy
          { stay with nx := nx + uv.1 * sp * (6/5), ny := ny + uv.2 * sp * (6/5), moved := true }
        else stay
      else if md2 < 60^2 ∧ cd = 0 then
        let h := e.health - NPC_DAMAGE
        if h ≤ 0 then
          { stay with
            enemies := g.enemies.set i { e with health := h, alive := false },
            player := { g.player with enemies_killed := g.player.enemies_killed + 1 },
            killsDelta := 1, cooldown := 30 }
        else
          { stay with enemies := g.enemies.set i { e with health := h }, cooldown := 30 }
      else stay
  | NPCReaction.notify_surprise => stay
  | NPCReaction.provide_healing =>
    let dx := g.player.x - nx
    let dy := g.player.y - ny
    let d2 := dx^2 + dy^2
    if d2 > 65^2 then
      let uv := u dx dy
      { stay with nx := nx + uv.1 * sp * (3/2), ny := ny + uv.2 * sp * (3/2), moved := true }
    else
      { stay with player := { g.player with health := min (g.player.health + 10) 100 } }

/-- Game.update_npc_position: cooldown decrement, reaction branch, obstacle
validity with revert, room clamp, integer rounding when unmoved.  Python
uses banker rounding; Mathlib round differs only on exact halves, which no
claim touches. -/
def update_npc_position (u : ℚ → ℚ → ℚ × ℚ) (g : Game) : Game :=
  let cd := g.npc.attack_cooldown - 1
  let o := npcBranch u g cd
  let valid := is_valid_move g o.nx o.ny NPC_SIZE
  let fx := if valid then o.nx else g.npc.x
  let fy := if valid then o.ny else g.npc.y
  let room := g.roomOf
  let cx := max (room.x + NPC_SIZE/2) (min fx (room.x + room.width - NPC_SIZE/2))
  let cy := max (room.y + NPC_SIZE/2) (min fy (room.y + room.height - NPC_SIZE/2))
  let rx := if o.moved then cx else ((round cx : ℤ) : ℚ)
  let ry := if o.moved then cy else ((round cy : ℤ) : ℚ)
  { g with
    npc := { g.npc with x := rx, y := ry, attack_cooldown := o.cooldown },
    player := o.player,
    enemies := o.enemies,
    enemies_killed := g.enemies_killed + o.killsDelta }

/-- Per enemy random draws of one pass of Game.update_enemies: the two
jitter offsets, the 30 percent retry draw, and the random heading
components (cos, sin of the drawn angle) scaled later by the speed. -/
structure EnemyRand where
  jx : ℚ
  jy : ℚ
  tryRandom : Bool
  rx : ℚ
  ry : ℚ

/-- The blocked-path fallback chain of Game.update_enemies, translated
statement by statement from the sequential reassignments of new_x, new_y:
full vector, then horizontal only, then vertical only, then (on the retry
draw) the random heading; the final candidate is taken only if valid,
otherwise the enemy keeps its jittered position (jx, jy). -/
def enemyChase (g : Game) (sp jx jy ux uy : ℚ) (tryRandom : Bool) (rx ry : ℚ) : ℚ × ℚ :=
  let n1 := (jx + ux * sp, jy + uy * sp)
  let n2 :=
    if is_valid_move g n1.1 n1.2 ENEMY_SIZE then n1
    else
      let h := (jx + ux * sp, jy)
      if is_valid_move g h.1 h.2 ENEMY_SIZE then h
      else
        let v := (jx, jy + uy * sp)
        if is_valid_move g v.1 v.2 ENEMY_SIZE then v
        else if tryRandom then (jx + rx * sp, jy + ry * sp) else v
  if is_valid_move g n2.1 n2.2 ENEMY_SIZE then n2 else (jx, jy)

/-- The fallback chain as the claim states it: candidates in order, first
valid wins, else stay put at the jittered position. -/
def enemyChaseSpec (g : Game) (sp jx jy ux uy : ℚ) (tryRandom : Bool) (rx ry : ℚ) : ℚ × ℚ :=
  if is_valid_move g (jx + ux * sp) (jy + uy * sp) ENEMY_SIZE then (jx + ux * sp, jy + uy * sp)
  else if is_valid_move g (jx + ux * sp) jy ENEMY_SIZE then (jx + ux * sp, jy)
  else if is_valid_move g jx (jy + uy * sp) ENEMY_SIZE then (jx, jy + uy * sp)
  else if tryRandom && is_valid_move g (jx + rx * sp) (jy + ry * sp) ENEMY_SIZE then
    (jx + rx * sp, jy + ry * sp)
  else (jx, jy)

/-- The body of one alive-in-room iteration of Game.update_enemies: jitter,
detection and chase, final validity revert against the pre-jitter position,
room clamp, and contact damage to the player computed from the pre-chase
distance, floored at zero. -/
def enemyStep (u : ℚ → ℚ → ℚ × ℚ) (g : Game) (r : EnemyRand) (ph : ℚ) (e : Enemy) : ℚ × Enemy :=
  let jx := e.x + r.jx
  let jy := e.y + r.jy
  let pd2 := dist2 g.player.x g.player.y jx jy
  let c :=
    if pd2 < ENEMY_DETECTION_RADIUS^2 then
      if pd2 > 0 then
        let uv := u (g.player.x - jx) (g.player.y - jy)
        enemyChase g e.speed jx jy uv.1 uv.2 r.tryRandom r.rx r.ry
      else (jx, jy)
    else (jx, jy)
  let valid := is_valid_move g c.1 c.2 ENEMY_SIZE
  let vx := if valid then c.1 else e.x
  let vy := if valid then c.2 else e.y
  let room := g.roomOf
  let cx := max (room.x + ENEMY_SIZE/2) (min vx (room.x + room.width - ENEMY_SIZE/2))
  let cy := max (room.y + ENEMY_SIZE/2) (min vy (room.y + room.height - ENEMY_SIZE/2))
  let ph2 := if pd2 < ATTACK_RADIUS^2 then max 0 (ph - ENEMY_DAMAGE / (FPS : ℚ)) else ph
  (ph2, { e with x := cx, y := cy })

/-- The loop of Game.update_enemies: dead or other-room enemies are skipped
whole and consume no random draw; the player health threads through. -/
def updateEnemiesGo (u : ℚ → ℚ → ℚ × ℚ) (g : Game) (f : ℕ → EnemyRand) :
    List Enemy → ℕ → ℚ → List Enemy × ℚ
  | [], _, ph => ([], ph)
  | e :: es, i, ph =>
    if e.room == g.current_room && e.alive then
      let pe := enemyStep u g (f i) ph e
      let rest := updateEnemiesGo u g f es (i + 1) pe.1
      (pe.2 :: rest.1, rest.2)
    else
      let rest := updateEnemiesGo u g f es i ph
      (e :: rest.1, rest.2)

/-- Game.update_enemies. -/
def update_enemies (u : ℚ → ℚ → ℚ × ℚ) (f : ℕ → EnemyRand) (g : Game) : Game :=
  let r := updateEnemiesGo u g f g.enemies 0 g.player.health
  { g with enemies := r.1, player := { g.player with health := r.2 } }

/-- Accumulator of the Game.check_resource_collection loop: player health,
player counter, global counter, door flag, unlock effect flag. -/
structure ResAcc where
  health : ℚ
  prc : ℕ
  grc : ℕ
  doorOpen : Bool
  unlock : Bool
deriving DecidableEq, Repr

/-- The body of one collecting iteration of Game.check_resource_collection
on the accumulator: both counters advance, the heal is capped at 100, and
the door opens once the global counter reaches 2 while it is still closed,
raising the persistent unlock effect. -/
def resAccStep (a : ResAcc) : ResAcc :=
  let grc := a.grc + 1
  let opening := grc ≥ 2 && !a.doorOpen
  { health := min (a.health + RESOURCE_HEAL) 100
    prc := a.prc + 1
    grc := grc
    doorOpen := a.doorOpen || opening
    unlock := if opening then true else a.unlock }

/-- The loop of Game.check_resource_collection: first contact collects and
applies resAccStep. -/
def checkResourcesGo (px py : ℚ) (room : ℕ) :
    List ResourceE → ResAcc → List ResourceE × ResAcc
  | [], a => ([], a)
  | r :: rs, a =>
    if r.room == room && !r.collected && decide (dist2 px py r.x r.y < ATTACK_RADIUS^2) then
      let rest := checkResourcesGo px py room rs (resAccStep a)
      ({ r with collected := true } :: rest.1, rest.2)
    else
      let rest := checkResourcesGo px py room rs a
      (r :: rest.1, rest.2)

/-- Game.check_resource_collection. -/
def check_resource_collection (g : Game) : Game :=
  let r := checkResourcesGo g.player.x g.player.y g.current_room g.resources
    { health := g.player.health, prc := g.player.resources_collected,
      grc := g.resources_collected, doorOpen := g.door.isOpen,
      unlock := g.door_unlock_effect }
  { g with
    resources := r.1,
    player := { g.player with health := r.2.health, resources_collected := r.2.prc },
    resources_collected := r.2.grc,
    door := { g.door with isOpen := r.2.doorOpen },
    door_unlock_effect := r.2.unlock }

/-- Game.is_player_at_door: closeness to the door center, separate
horizontal and vertical thresholds. -/
def is_player_at_door (g : Game) : Bool :=
  decide (|g.player.x - (g.door.x + g.door.width / 2)| < g.door.width / 2 + PLAYER_SIZE / 2) &&
  decide (|g.player.y - (g.door.y + g.door.height / 2)| < g.door.height / 2 + PLAYER_SIZE / 2)

def ROOM_WIDTH : ℚ := 600
def ROOM_HEIGHT : ℚ := 600
def room_transition_cooldown : ℚ := 500

/-- Game.check_door_interaction with the pygame clock value passed in:
cooldown-gated traversal of an open door teleports player and npc to the
anchors of the other room; a locked door nudges the player back. -/
def check_door_interaction (now : ℚ) (g : Game) : Game :=
  if is_player_at_door g then
    if now - g.last_room_transition > room_transition_cooldown then
      if g.door.isOpen then
        let g1 := { g with door_unlock_effect := false }
        if g1.current_room = 1 then
          { g1 with
            current_room := 2,
            player := { g1.player with x := g1.room2.x + 50, y := g1.room2.y + ROOM_HEIGHT / 2 },
            npc := { g1.npc with x := g1.room2.x + 50 - 30, y := g1.room2.y + ROOM_HEIGHT / 2 },
            last_room_transition := now }
        else
          { g1 with
            current_room := 1,
            player := { g1.player with x := g1.room1.x + ROOM_WIDTH - 50, y := g1.room1.y + ROOM_HEIGHT / 2 },
            npc := { g1.npc with x := g1.room1.x + ROOM_WIDTH - 50 - 30, y := g1.room1.y + ROOM_HEIGHT / 2 },
            last_room_transition := now }
      else
        if g.player.x < g.door.x then { g with player := { g.player with x := g.player.x - 10 } }
        else { g with player := { g.player with x := g.player.x + 10 } }
    else g
  else g

/-- pygame Rect.colliderect overlap test.  pygame truncates float rect
coordinates to integers; the embedding keeps exact rationals. -/
def rectsCollide (ax ay aw ah bx by2 bw bh : ℚ) : Bool :=
  decide (ax < bx + bw) && decide (ay < by2 + bh) &&
  decide (ax + aw > bx) && decide (ay + ah > by2)

/-- Game.check_exit_interaction: only in room 2, on rectangle overlap, with
the completion gate enemies_killed at least 8 and resources_collected at
least 4; the missing-counts feedback of the source is print-only and has no
state effect. -/
def check_exit_interaction (g : Game) : Game :=
  if g.current_room = 2 then
    if rectsCollide (g.player.x - PLAYER_SIZE/2) (g.player.y - PLAYER_SIZE/2)
        PLAYER_SIZE PLAYER_SIZE
        g.exitZone.x g.exitZone.y g.exitZone.width g.exitZone.height then
      if g.player.enemies_killed ≥ 8 ∧ g.player.resources_collected ≥ 4 then
        { g with state := GState.completed }
      else g
    else g
  else g

/-- The entity placement data consumed by one Game.reset call, abstracting
the random generation of obstacles and the random valid positions and
speeds of enemies and resources (the source spawns 7 and 8 enemies and 2
and 2 resources; the counts are immaterial to the claims). -/
structure ResetLayout where
  obstacles1 : List (ℚ × ℚ)
  obstacles2 : List (ℚ × ℚ)
  enemies1 : List (ℚ × ℚ × ℚ)
  enemies2 : List (ℚ × ℚ × ℚ)
  resources1 : List (ℚ × ℚ)
  resources2 : List (ℚ × ℚ)

/-- The external input of one tick: the pygame events (booleans), the held
movement keys, the clock, the random draws for the enemy pass, and the
placement data a mid-run reset would consume. -/
structure TickInput where
  spaceDown : Bool
  spaceUp : Bool
  toggleDebug : Bool
  keyO : Bool
  key1 : Bool
  key2 : Bool
  up : Bool
  down : Bool
  left : Bool
  right : Bool
  startKey : Bool
  quitEvent : Bool
  nowMs : ℚ
  enemyRand : ℕ → EnemyRand
  layout : ResetLayout

def WIDTH : ℚ := 1400
def HEIGHT : ℚ := 750
def room_x_offset : ℚ := (WIDTH - (2 * ROOM_WIDTH + 150)) / 2
def room_y_offset : ℚ := (HEIGHT - ROOM_HEIGHT) / 2

/-- Game.reset: the whole entity set rebuilt; participant fields, the debug
flag, the time limit, the game state and the transition clock are left
untouched by the source reset. -/
def resetGame (g : Game) (L : ResetLayout) : Game :=
  let r1 : Rect := { x := room_x_offset, y := room_y_offset, width := ROOM_WIDTH, height := ROOM_HEIGHT }
  let r2 : Rect := { x := room_x_offset + ROOM_WIDTH + 150, y := room_y_offset, width := ROOM_WIDTH, height := ROOM_HEIGHT }
  { g with
    running := true
    resources_collected := 0
    enemies_killed := 0
    current_room := 1
    frame := 0
    door_unlock_effect := false
    lagged_player_action := PlayerAction.idle
    player :=
      { x := room_x_offset + 150, y := room_y_offset + 150, health := 100,
        action := PlayerAction.idle, speed := PLAYER_SPEED,
        resources_collected := 0, enemies_killed := 0 }
    npc :=
      { x := room_x_offset + 100, y := room_y_offset + 100,
        emotion := NPCEmotion.anticipation, emotion_lagged := NPCEmotion.anticipation,
        reaction := NPCReaction.follow, speed := NPC_SPEED, attack_cooldown := 0 }
    room1 := r1
    room2 := r2
    obstacles1 := L.obstacles1
    obstacles2 := L.obstacles2
    enemies :=
      L.enemies1.map (fun t => { x := t.1, y := t.2.1, speed := t.2.2, alive := true, room := 1, health := 100 }) ++
      L.enemies2.map (fun t => { x := t.1, y := t.2.1, speed := t.2.2, alive := true, room := 2, health := 100 })
    resources :=
      L.resources1.map (fun p => { x := p.1, y := p.2, collected := false, room := 1 }) ++
      L.resources2.map (fun p => { x := p.1, y := p.2, collected := false, room := 2 })
    door := { x := r1.x + ROOM_WIDTH, y := r1.y + ROOM_HEIGHT / 2 - 50, width := 150, height := 100, isOpen := false }
    exitZone := { x := r2.x + ROOM_WIDTH - 70, y := r2.y + ROOM_HEIGHT / 2 - 40, width := 60, height := 80 } }

/-- Space keydown event: set the attack action and fire check_attack
immediately, as the source event loop does. -/
def evSpaceDown (inp : TickInput) (g : Game) : Game :=
  if inp.spaceDown then
    check_attack { g with player := { g.player with action := PlayerAction.attack } }
  else g

/-- Ctrl-D event: toggle debug mode. -/
def evToggleDebug (inp : TickInput) (g : Game) : Game :=
  if inp.toggleDebug then { g with debug_mode := !g.debug_mode } else g

/-- Debug key O: force the door open. -/
def evKeyO (inp : TickInput) (g : Game) : Game :=
  if g.debug_mode && inp.keyO then { g with door := { g.door with isOpen := true } } else g

/-- Debug key 1: teleport to the center of room 1. -/
def evKey1 (inp : TickInput) (g : Game) : Game :=
  if g.debug_mode && inp.key1 then
    { g with
      current_room := 1,
      player := { g.player with x := g.room1.x + ROOM_WIDTH / 2, y := g.room1.y + ROOM_HEIGHT / 2 } }
  else g

/-- Debug key 2: teleport to the center of room 2. -/
def evKey2 (inp : TickInput) (g : Game) : Game :=
  if g.debug_mode && inp.key2 then
    { g with
      current_room := 2,
      player := { g.player with x := g.room2.x + ROOM_WIDTH / 2, y := g.room2.y + ROOM_HEIGHT / 2 } }
  else g

/-- Space keyup event: an attacking player returns to idle. -/
def evSpaceUp (inp : TickInput) (g : Game) : Game :=
  if inp.spaceUp && (g.player.action == PlayerAction.attack) then
    { g with player := { g.player with action := PlayerAction.idle } }
  else g

/-- The event part of Game.handle_playing_events, one pass over the tick
events in a fixed order compatible with the source event queue. -/
def eventPhase (inp : TickInput) (g : Game) : Game :=
  evSpaceUp inp (evKey2 inp (evKey1 inp (evKeyO inp (evToggleDebug inp (evSpaceDown inp g)))))

/-- The held-key movement of Game.handle_playing_events: tentative position
and the moved flag. -/
def playerTentative (inp : TickInput) (p : PlayerS) : ℚ × ℚ × Bool :=
  let y1 := if inp.up then p.y - p.speed else p.y
  let y2 := if inp.down then y1 + p.speed else y1
  let x1 := if inp.left then p.x - p.speed else p.x
  let x2 := if inp.right then x1 + p.speed else x1
  (x2, y2, inp.up || inp.down || inp.left || inp.right)

/-- The movement part of Game.handle_playing_events: tentative move, action
update, obstacle validity with full revert, then either immediate door
interaction (at an open door) or the room boundary clamp. -/
def playerMovePhase (inp : TickInput) (g : Game) : Game :=
  let old_x := g.player.x
  let old_y := g.player.y
  let t := playerTentative inp g.player
  let action1 :=
    if t.2.2 && !(g.player.action == PlayerAction.attack) then PlayerAction.move
    else if !t.2.2 && !(g.player.action == PlayerAction.attack) then PlayerAction.idle
    else g.player.action
  let valid := is_valid_move g t.1 t.2.1 PLAYER_SIZE
  let nx := if valid then t.1 else old_x
  let ny := if valid then t.2.1 else old_y
  let g1 := { g with player := { g.player with x := nx, y := ny, action := action1 } }
  if is_player_at_door g1 && g1.door.isOpen then check_door_interaction inp.nowMs g1
  else
    let room := g1.roomOf
    { g1 with player := { g1.player with
        x := max (room.x + PLAYER_SIZE/2) (min g1.player.x (room.x + room.width - PLAYER_SIZE/2)),
        y := max (room.y + PLAYER_SIZE/2) (min g1.player.y (room.y + room.height - PLAYER_SIZE/2)) } }

/-- Game.handle_playing_events. -/
def handle_playing_events (inp : TickInput) (g : Game) : Game :=
  playerMovePhase inp (eventPhase inp g)

/-- The PLAYING branch of Game.update before the terminal checks: frame
advance, lagged action save, events, emotion, npc, enemies, resources,
exit, in the fixed source order. -/
def playingTick (es : EmotionArgs → NPCEmotion) (u : ℚ → ℚ → ℚ × ℚ)
    (inp : TickInput) (g : Game) : Game :=
  let g1 := { g with frame := g.frame + 1, lagged_player_action := g.player.action }
  let g2 := handle_playing_events inp g1
  let g3 := update_npc_emotion es g2
  let g4 := update_npc_position u g3
  let g5 := update_enemies u inp.enemyRand g4
  let g6 := check_resource_collection g5
  check_exit_interaction g6

/-- Game.update, returning also whether the death reset fired this tick
(the run boundary).  After the substeps a dead player triggers reset, and
the frame counter against the time limit flips the state to COMPLETED. -/
def updateR (es : EmotionArgs → NPCEmotion) (u : ℚ → ℚ → ℚ × ℚ)
    (inp : TickInput) (g : Game) : Game × Bool :=
  match g.state with
  | GState.start_screen =>
    let g1 := if inp.toggleDebug then { g with debug_mode := !g.debug_mode } else g
    (if inp.startKey then { g1 with state := GState.playing } else g1, false)
  | GState.completed =>
    (if inp.quitEvent then { g with running := false } else g, false)
  | GState.playing =>
    let g1 := playingTick es u inp g
    let gr := if g1.player.health ≤ 0 then (resetGame g1 inp.layout, true) else (g1, false)
    let g2 := gr.1
    let g3 :=
      if g2.game_time_limit > 0 ∧ g2.frame ≥ g2.game_time_limit * FPS then
        { g2 with state := GState.completed }
      else g2
    (g3, gr.2)

/-- Game.update as a state transformer. -/
def update (es : EmotionArgs → NPCEmotion) (u : ℚ → ℚ → ℚ × ℚ)
    (inp : TickInput) (g : Game) : Game :=
  (updateR es u inp g).1

/-- n ticks of the main loop with input stream inps. -/
def iterUpdate (es : EmotionArgs → NPCEmotion) (u : ℚ → ℚ → ℚ × ℚ)
    (inps : ℕ → TickInput) : ℕ → Game → Game
  | 0, g => g
  | n + 1, g => update es u (inps n) (iterUpdate es u inps n g)

/-- The session result record assembled at the end of Game.run.  Python
int() truncates toward zero; for the health range of interest this is the
floor. -/
structure RunRecord where
  resources_collected : ℕ
  enemies_killed : ℕ
  health : ℤ
  completed : Bool
  play_time : ℚ
deriving DecidableEq, Repr

/-- The record returned by Game.run for a study participant. -/
def gameRecord (g : Game) : RunRecord :=
  { resources_collected := g.player.resources_collected
    enemies_killed := g.player.enemies_killed
    health := ⌊g.player.health⌋
    completed := decide (g.state = GState.completed)
    play_time := (g.frame : ℚ) / (FPS : ℚ) }

/-- Number of positions whose alive flag flips true to false between two
enemy lists, compared pointwise. -/
def countFlips : List Enemy → List Enemy → ℕ
  | a :: as, b :: bs => (if a.alive && !b.alive then 1 else 0) + countFlips as bs
  | _, _ => 0

/-! Concrete states and inputs used by witnesses and counterexamples. -/

/-- Degenerate random draws: zero jitter, no retry, zero heading. -/
def constRand : EnemyRand := { jx := 0, jy := 0, tryRandom := false, rx := 0, ry := 0 }

/-- An empty placement layout. -/
def emptyLayout : ResetLayout :=
  { obstacles1 := [], obstacles2 := [], enemies1 := [], enemies2 := [],
    resources1 := [], resources2 := [] }

/-- A tick with no events and no held keys. -/
def idleInput : TickInput :=
  { spaceDown := false, spaceUp := false, toggleDebug := false, keyO := false,
    key1 := false, key2 := false, up := false, down := false, left := false,
    right := false, startKey := false, quitEvent := false, nowMs := 1000,
    enemyRand := fun _ => constRand, layout := emptyLayout }

/-- A degenerate unit-vector oracle returning the zero direction. -/
def unit0 : ℚ → ℚ → ℚ × ℚ := fun _ _ => (0, 0)

/-- A unit-vector oracle pointing along the positive x axis. -/
def unitX : ℚ → ℚ → ℚ × ℚ := fun _ _ => (1, 0)

/-- A mid-run state in room 1 with the reset geometry, the player and npc
at the room center, and otherwise empty entity lists. -/
def baseGame : Game :=
  { player :=
      { x := 325, y := 375, health := 100, action := PlayerAction.idle,
        speed := 4, resources_collected := 0, enemies_killed := 0 }
    npc :=
      { x := 325, y := 375, emotion := NPCEmotion.anticipation,
        emotion_lagged := NPCEmotion.anticipation, reaction := NPCReaction.follow,
        speed := 5/2, attack_cooldown := 0 }
    enemies := []
    resources := []
    room1 := { x := 25, y := 75, width := 600, height := 600 }
    room2 := { x := 775, y := 75, width := 600, height := 600 }
    obstacles1 := []
    obstacles2 := []
    door := { x := 625, y := 325, width := 150, height := 100, isOpen := false }
    exitZone := { x := 1305, y := 335, width := 60, height := 80 }
    current_room := 1
    resources_collected := 0
    enemies_killed := 0
    door_unlock_effect := false
    lagged_player_action := PlayerAction.idle
    state := GState.playing
    frame := 0
    game_time_limit := 120
    debug_mode := false
    last_room_transition := 0
    running := true }

/-- An alive enemy 5 units to the right of the baseGame player. -/
def eNear : Enemy := { x := 330, y := 375, speed := 1, alive := true, room := 1, health := 100 }

/-- A dead enemy elsewhere in room 1. -/
def eDead : Enemy := { x := 300, y := 200, speed := 1, alive := false, room := 1, health := 50 }

/-- An alive enemy 75 units from the baseGame player. -/
def eFar : Enemy := { x := 400, y := 375, speed := 1, alive := true, room := 1, health := 100 }

/-- An uncollected resource 75 units from the baseGame player. -/
def rOne : ResourceE := { x := 325, y := 300, collected := false, room := 1 }

/-- baseGame with debug mode already toggled on. -/
def gDbg : Game := { baseGame with debug_mode := true }

/-- baseGame with the attack action held from an earlier tick, one adjacent
alive enemy, and the npc far from that enemy. -/
def gHeld : Game :=
  { baseGame with
    player := { baseGame.player with action := PlayerAction.attack },
    npc := { baseGame.npc with x := 125 },
    enemies := [eNear] }

/-- baseGame with a single dead enemy. -/
def gDead : Game := { baseGame with enemies := [eDead] }

/-- baseGame with one enemy and one resource present. -/
def gOne : Game := { baseGame with enemies := [eFar], resources := [rOne] }

/-- baseGame with an obstacle just above the player, blocking an upward
step. -/
def gObs : Game := { baseGame with obstacles1 := [(330, 345)] }

/-- baseGame with the npc to the left of the player and an obstacle
blocking the approach step of the follow reaction. -/
def gNpcObs : Game :=
  { baseGame with
    npc := { baseGame.npc with x := 200 },
    obstacles1 := [(204, 375)] }

/-- baseGame one frame before a one-second time limit expires. -/
def gTime : Game := { baseGame with frame := 29, game_time_limit := 1 }

/-- The idle tick with the debug door key pressed. -/
def inpKeyO : TickInput := { idleInput with keyO := true }

/-- The idle tick with a space keydown event. -/
def inpSpace : TickInput := { idleInput with spaceDown := true }

/-- The idle tick with the up movement key held. -/
def inpUp : TickInput := { idleInput with up := true }

/-- The constant stream of idle ticks. -/
def idleStream : ℕ → TickInput := fun _ => idleInput

/-! Helper lemmas about folded minima. -/

theorem foldl_min_le_init (xs : List ℚ) : ∀ a : ℚ, xs.foldl min a ≤ a := by
  induction xs with
  | nil => intro a; exact le_refl a
  | cons y ys ih => intro a; exact le_trans (ih (min a y)) (min_le_left a y)

theorem foldl_min_le_mem (xs : List ℚ) : ∀ a x, x ∈ xs → xs.foldl min a ≤ x := by
  induction xs with
  | nil => intro a x hx; cases hx
  | cons y ys ih =>
    intro a x hx
    rcases List.mem_cons.mp hx with h | h
    · subst h; exact le_trans (foldl_min_le_init ys (min a x)) (min_le_right a x)
    · exact ih (min a y) x h

theorem foldl_min_mem (xs : List ℚ) : ∀ a, xs.foldl min a = a ∨ xs.foldl min a ∈ xs := by
  induction xs with
  | nil => intro a; exact Or.inl rfl
  | cons y ys ih =>
    intro a
    rcases ih (min a y) with h | h
    · rcases min_choice a y with hm | hm
      · left; rw [List.foldl_cons, h, hm]
      · right; rw [List.foldl_cons, h, hm]; exact List.mem_cons_self y ys
    · right; rw [List.foldl_cons]; exact List.mem_cons_of_mem y h

/-- C1: determine_emotion of the rule-based strategy equals the priority
chain SADNESS before SURPRISE before ANGER before FEAR before HAPPINESS
before ANTICIPATION, later source checks overriding earlier ones. -/
theorem rule_emotion_priority_chain (ph ep rp : ℚ) (la : PlayerAction) (lv : ℕ)
    (px py nx ny : ℚ) (rc ek : ℕ) (el : NPCEmotion) (ca : PlayerAction) :
    determine_emotion ph ep rp la lv px py nx ny rc ek el ca =
      ruleEmotionSpec ph ep rp px py nx ny ca := by
  simp only [determine_emotion, ruleEmotionSpec]

/-- C8: the blocked-path fallback of update_enemies equals the chain that
tries full vector, horizontal only, vertical only, then on the retry draw
the random heading, taking the first valid candidate and otherwise staying
at the jittered position. -/
theorem enemy_fallback_chain (g : Game) (sp jx jy ux uy : ℚ) (tr : Bool) (rx ry : ℚ) :
    enemyChase g sp jx jy ux uy tr rx ry = enemyChaseSpec g sp jx jy ux uy tr rx ry := by
  simp only [enemyChase, enemyChaseSpec]
  split_ifs <;> simp_all

/-- C4: check_exit_interaction flips the state to COMPLETED exactly when
the current room is 2, the player rectangle overlaps the exit rectangle,
and the completion gate enemies_killed at least 8 and resources_collected
at least 4 holds; otherwise the state is untouched. -/
theorem exit_completion_gate (g : Game) :
    check_exit_interaction g =
      if g.current_room = 2 ∧
          rectsCollide (g.player.x - PLAYER_SIZE/2) (g.player.y - PLAYER_SIZE/2)
            PLAYER_SIZE PLAYER_SIZE
            g.exitZone.x g.exitZone.y g.exitZone.width g.exitZone.height = true ∧
          g.player.enemies_killed ≥ 8 ∧ g.player.resources_collected ≥ 4 then
        { g with state := GState.completed }
      else g := by
  simp only [check_exit_interaction]
  split_ifs <;> first | rfl | tauto

/-- C10: both nearest-distance snapshots return the minimum squared player
distance over the live entities of the current room, and the sentinel
1000^2 when there are none; the sentinel exceeds every squared rule
threshold. -/
theorem nearest_distance_sentinel :
    (∀ g : Game, aliveEnemiesInRoom g = [] → get_nearest_enemy_distance2 g = 1000^2) ∧
    (∀ g : Game, ∀ e ∈ aliveEnemiesInRoom g,
        get_nearest_enemy_distance2 g ≤ dist2 g.player.x g.player.y e.x e.y) ∧
    (∀ g : Game, aliveEnemiesInRoom g ≠ [] →
        ∃ e ∈ aliveEnemiesInRoom g,
          get_nearest_enemy_distance2 g = dist2 g.player.x g.player.y e.x e.y) ∧
    (∀ g : Game, uncollectedResourcesInRoom g = [] → get_nearest_resource_distance2 g = 1000^2) ∧
    (∀ g : Game, ∀ r ∈ uncollectedResourcesInRoom g,
        get_nearest_resource_distance2 g ≤ dist2 g.player.x g.player.y r.x r.y) ∧
    (∀ g : Game, uncollectedResourcesInRoom g ≠ [] →
        ∃ r ∈ uncollectedResourcesInRoom g,
          get_nearest_resource_distance2 g = dist2 g.player.x g.player.y r.x r.y) ∧
    ((150:ℚ)^2 < 1000^2 ∧ (125:ℚ)^2 < 1000^2 ∧ (60:ℚ)^2 < 1000^2) := by
  refine ⟨?_, ?_, ?_, ?_, ?_, ?_, by norm_num⟩
  · intro g h
    simp [get_nearest_enemy_distance2, h]
  · intro g e he
    unfold get_nearest_enemy_distance2
    cases hm : (aliveEnemiesInRoom g).map (fun e => dist2 g.player.x g.player.y e.x e.y) with
    | nil =>
      exact absurd (hm ▸ List.mem_map_of_mem _ he) (by simp)
    | cons d ds =>
      have hmem : dist2 g.player.x g.player.y e.x e.y ∈ d :: ds :=
        hm ▸ List.mem_map_of_mem _ he
      rcases List.mem_cons.mp hmem with h | h
      · rw [← h]
        exact foldl_min_le_init ds _
      · exact foldl_min_le_mem ds d _ h
  · intro g h
    unfold get_nearest_enemy_distance2
    cases hm : (aliveEnemiesInRoom g).map (fun e => dist2 g.player.x g.player.y e.x e.y) with
    | nil => exact absurd (List.map_eq_nil_iff.mp hm) h
    | cons d ds =>
      have : ds.foldl min d ∈ d :: ds := by
        rcases foldl_min_mem ds d with h1 | h1
        · rw [h1]; exact List.mem_cons_self d ds
        · exact List.mem_cons_of_mem d h1
      have : ds.foldl min d ∈
          (aliveEnemiesInRoom g).map (fun e => dist2 g.player.x g.player.y e.x e.y) := by
        rw [hm]; exact this
      rcases List.mem_map.mp this with ⟨e, he, hval⟩
      exact ⟨e, he, hval.symm⟩
  · intro g h
    simp [get_nearest_resource_distance2, h]
  · intro g r hr
    unfold get_nearest_resource_distance2
    cases hm : (uncollectedResourcesInRoom g).map (fun r => dist2 g.player.x g.player.y r.x r.y) with
    | nil =>
      exact absurd (hm ▸ List.mem_map_of_mem _ hr) (by simp)
    | cons d ds =>
      have hmem : dist2 g.player.x g.player.y r.x r.y ∈ d :: ds :=
        hm ▸ List.mem_map_of_mem _ hr
      rcases List.mem_cons.mp hmem with h | h
      · rw [← h]
        exact foldl_min_le_init ds _
      · exact foldl_min_le_mem ds d _ h
  · intro g h
    unfold get_nearest_resource_distance2
    cases hm : (uncollectedResourcesInRoom g).map (fun r => dist2 g.player.x g.player.y r.x r.y) with
    | nil => exact absurd (List.map_eq_nil_iff.mp hm) h
    | cons d ds =>
      have hin : ds.foldl min d ∈ d :: ds := by
        rcases foldl_min_mem ds d with h1 | h1
        · rw [h1]; exact List.mem_cons_self d ds
        · exact List.mem_cons_of_mem d h1
      have : ds.foldl min d ∈
          (uncollectedResourcesInRoom g).map (fun r => dist2 g.player.x g.player.y r.x r.y) := by
        rw [hm]; exact hin
      rcases List.mem_map.mp this with ⟨r, hr, hval⟩
      exact ⟨r, hr, hval.symm⟩

/-- Witness for the sentinel theorem: the empty baseGame and the one-enemy
one-resource state gOne, with concrete distances 75 squared. -/
theorem nearest_distance_sentinel_witness :
    (aliveEnemiesInRoom baseGame = [] ∧ get_nearest_enemy_distance2 baseGame = 1000^2) ∧
    (eFar ∈ aliveEnemiesInRoom gOne ∧
      get_nearest_enemy_distance2 gOne ≤ dist2 gOne.player.x gOne.player.y eFar.x eFar.y) ∧
    (rOne ∈ uncollectedResourcesInRoom gOne ∧
      get_nearest_resource_distance2 gOne ≤ dist2 gOne.player.x gOne.player.y rOne.x rOne.y) :=
  ⟨⟨by decide, nearest_distance_sentinel.1 baseGame (by decide)⟩,
   ⟨by decide, nearest_distance_sentinel.2.1 gOne eFar (by decide)⟩,
   ⟨by decide, nearest_distance_sentinel.2.2.2.2.1 gOne rOne (by decide)⟩⟩

/-! Health preservation and bounds per phase. -/

theorem check_attack_health (g : Game) :
    (check_attack g).player.health = g.player.health := by
  unfold check_attack
  split_ifs <;> rfl

theorem evSpaceDown_health (inp : TickInput) (g : Game) :
    (evSpaceDown inp g).player.health = g.player.health := by
  unfold evSpaceDown
  split_ifs <;> simp [check_attack_health]

theorem evToggleDebug_health (inp : TickInput) (g : Game) :
    (evToggleDebug inp g).player.health = g.player.health := by
  unfold evToggleDebug
  split_ifs <;> rfl

theorem evKeyO_health (inp : TickInput) (g : Game) :
    (evKeyO inp g).player.health = g.player.health := by
  unfold evKeyO
  split_ifs <;> rfl

theorem evKey1_health (inp : TickInput) (g : Game) :
    (evKey1 inp g).player.health = g.player.health := by
  unfold evKey1
  split_ifs <;> rfl

theorem evKey2_health (inp : TickInput) (g : Game) :
    (evKey2 inp g).player.health = g.player.health := by
  unfold evKey2
  split_ifs <;> rfl

theorem evSpaceUp_health (inp : TickInput) (g : Game) :
    (evSpaceUp inp g).player.health = g.player.health := by
  unfold evSpaceUp
  split_ifs <;> rfl

theorem eventPhase_health (inp : TickInput) (g : Game) :
    (eventPhase inp g).player.health = g.player.health := by
  unfold eventPhase
  rw [evSpaceUp_health, evKey2_health, evKey1_health, evKeyO_health,
    evToggleDebug_health, evSpaceDown_health]

theorem check_door_health (now : ℚ) (g : Game) :
    (check_door_interaction now g).player.health = g.player.health := by
  simp only [check_door_interaction]
  split_ifs <;> rfl

theorem playerMovePhase_health (inp : TickInput) (g : Game) :
    (playerMovePhase inp g).player.health = g.player.health := by
  simp only [playerMovePhase]
  split_ifs <;> simp [check_door_health]

theorem handle_playing_events_health (inp : TickInput) (g : Game) :
    (handle_playing_events inp g).player.health = g.player.health := by
  unfold handle_playing_events
  rw [playerMovePhase_health, eventPhase_health]

theorem update_npc_emotion_player (es : EmotionArgs → NPCEmotion) (g : Game) :
    (update_npc_emotion es g).player = g.player := rfl

theorem npcBranch_health_cases (u : ℚ → ℚ → ℚ × ℚ) (g : Game) (cd : ℕ) :
    (npcBranch u g cd).player.health = g.player.health ∨
    (npcBranch u g cd).player.health = min (g.player.health + 10) 100 := by
  rcases h : g.npc.reaction <;> simp only [npcBranch, h]
  case follow =>
    split_ifs <;> first | exact Or.inl rfl | exact Or.inl trivial
  case notify_resource =>
    split_ifs <;> first | exact Or.inl rfl | exact Or.inl trivial
  case notify_danger =>
    split_ifs <;> first | exact Or.inl rfl | exact Or.inl trivial
  case attack_enemy =>
    cases hn : nearestAliveEnemy g <;> simp only [hn]
    · first | exact Or.inl rfl | exact Or.inl trivial
    · split_ifs <;> first | exact Or.inl rfl | exact Or.inl trivial
  case notify_surprise => first | exact Or.inl rfl | exact Or.inl trivial
  case provide_healing =>
    split_ifs
    · first | exact Or.inl rfl | exact Or.inl trivial
    · first | exact Or.inr rfl | exact Or.inr trivial

theorem update_npc_position_health_bound (u : ℚ → ℚ → ℚ × ℚ) (g : Game)
    (h0 : 0 ≤ g.player.health) (h1 : g.player.health ≤ 100) :
    0 ≤ (update_npc_position u g).player.health ∧
    (update_npc_position u g).player.health ≤ 100 := by
  have hp : (update_npc_position u g).player.health =
      (npcBranch u g (g.npc.attack_cooldown - 1)).player.health := rfl
  rw [hp]
  rcases npcBranch_health_cases u g (g.npc.attack_cooldown - 1) with h | h <;> rw [h]
  · exact ⟨h0, h1⟩
  · exact ⟨le_min (by linarith) (by norm_num), min_le_right _ _⟩

theorem enemyStep_fst (u : ℚ → ℚ → ℚ × ℚ) (g : Game) (r : EnemyRand) (ph : ℚ) (e : Enemy) :
    (enemyStep u g r ph e).1 =
      if dist2 g.player.x g.player.y (e.x + r.jx) (e.y + r.jy) < ATTACK_RADIUS^2 then
        max 0 (ph - ENEMY_DAMAGE / (FPS : ℚ))
      else ph := rfl

theorem updateEnemiesGo_health_bound (u : ℚ → ℚ → ℚ × ℚ) (g : Game) (f : ℕ → EnemyRand) :
    ∀ (l : List Enemy) (i : ℕ) (ph : ℚ), 0 ≤ ph → ph ≤ 100 →
      0 ≤ (updateEnemiesGo u g f l i ph).2 ∧ (updateEnemiesGo u g f l i ph).2 ≤ 100 := by
  intro l
  induction l with
  | nil => intro i ph h0 h1; exact ⟨h0, h1⟩
  | cons e es ih =>
    intro i ph h0 h1
    unfold updateEnemiesGo
    split_ifs with hg
    · have hb : 0 ≤ (enemyStep u g (f i) ph e).1 ∧ (enemyStep u g (f i) ph e).1 ≤ 100 := by
        rw [enemyStep_fst]
        split_ifs with hd
        · refine ⟨le_max_left 0 _, max_le (by norm_num) ?_⟩
          have : (0:ℚ) ≤ ENEMY_DAMAGE / (FPS : ℚ) := by norm_num [ENEMY_DAMAGE, FPS]
          linarith
        · exact ⟨h0, h1⟩
      exact ih (i + 1) _ hb.1 hb.2
    · exact ih i ph h0 h1

theorem update_enemies_health_bound (u : ℚ → ℚ → ℚ × ℚ) (f : ℕ → EnemyRand) (g : Game)
    (h0 : 0 ≤ g.player.health) (h1 : g.player.health ≤ 100) :
    0 ≤ (update_enemies u f g).player.health ∧
    (update_enemies u f g).player.health ≤ 100 := by
  have hp : (update_enemies u f g).player.health =
      (updateEnemiesGo u g f g.enemies 0 g.player.health).2 := rfl
  rw [hp]
  exact updateEnemiesGo_health_bound u g f g.enemies 0 g.player.health h0 h1

theorem resGo_nil (px py : ℚ) (room : ℕ) (a : ResAcc) :
    checkResourcesGo px py room [] a = ([], a) := rfl

theorem resGo_snd_cons (px py : ℚ) (room : ℕ) (r : ResourceE) (rs : List ResourceE) (a : ResAcc) :
    (checkResourcesGo px py room (r :: rs) a).2 =
      if (r.room == room && !r.collected && decide (dist2 px py r.x r.y < ATTACK_RADIUS^2)) = true then
        (checkResourcesGo px py room rs (resAccStep a)).2
      else (checkResourcesGo px py room rs a).2 := by
  simp only [checkResourcesGo]
  split_ifs <;> rfl

theorem resAccStep_health (a : ResAcc) :
    (resAccStep a).health = min (a.health + RESOURCE_HEAL) 100 := rfl

theorem resAccStep_grc (a : ResAcc) : (resAccStep a).grc = a.grc + 1 := rfl

theorem resAccStep_doorOpen (a : ResAcc) :
    (resAccStep a).doorOpen = (a.doorOpen || (decide (a.grc + 1 ≥ 2) && !a.doorOpen)) := rfl

theorem checkResourcesGo_health_bound (px py : ℚ) (room : ℕ) :
    ∀ (l : List ResourceE) (a : ResAcc), 0 ≤ a.health → a.health ≤ 100 →
      0 ≤ (checkResourcesGo px py room l a).2.health ∧
      (checkResourcesGo px py room l a).2.health ≤ 100 := by
  intro l
  induction l with
  | nil => intro a h0 h1; exact ⟨h0, h1⟩
  | cons r rs ih =>
    intro a h0 h1
    rw [resGo_snd_cons]
    split_ifs with hg
    · refine ih _ ?_ ?_
      · rw [resAccStep_health]
        exact le_min (by simp only [RESOURCE_HEAL]; linarith) (by norm_num)
      · rw [resAccStep_health]
        exact min_le_right _ _
    · exact ih a h0 h1

theorem check_resource_collection_health_bound (g : Game)
    (h0 : 0 ≤ g.player.health) (h1 : g.player.health ≤ 100) :
    0 ≤ (check_resource_collection g).player.health ∧
    (check_resource_collection g).player.health ≤ 100 := by
  have hp : (check_resource_collection g).player.health =
      (checkResourcesGo g.player.x g.player.y g.current_room g.resources
        { health := g.player.health, prc := g.player.resources_collected,
          grc := g.resources_collected, doorOpen := g.door.isOpen,
          unlock := g.door_unlock_effect }).2.health := rfl
  rw [hp]
  exact checkResourcesGo_health_bound _ _ _ _ _ h0 h1

theorem check_exit_health (g : Game) :
    (check_exit_interaction g).player.health = g.player.health := by
  unfold check_exit_interaction
  split_ifs <;> rfl

theorem playingTick_health_bound (es : EmotionArgs → NPCEmotion) (u : ℚ → ℚ → ℚ × ℚ)
    (inp : TickInput) (g : Game)
    (h0 : 0 ≤ g.player.health) (h1 : g.player.health ≤ 100) :
    0 ≤ (playingTick es u inp g).player.health ∧
    (playingTick es u inp g).player.health ≤ 100 := by
  unfold playingTick
  have e1 : (handle_playing_events inp
      { g with frame := g.frame + 1, lagged_player_action := g.player.action }).player.health
      = g.player.health := by rw [handle_playing_events_health]
  have e2 := update_npc_emotion_player es
    (handle_playing_events inp { g with frame := g.frame + 1, lagged_player_action := g.player.action })
  have h4 := update_npc_position_health_bound u
    (update_npc_emotion es (handle_playing_events inp
      { g with frame := g.frame + 1, lagged_player_action := g.player.action }))
    (by rw [e2, e1]; exact h0) (by rw [e2, e1]; exact h1)
  have h5 := update_enemies_health_bound u inp.enemyRand _ h4.1 h4.2
  have h6 := check_resource_collection_health_bound _ h5.1 h5.2
  rw [check_exit_health]
  exact h6

theorem resetGame_health (g : Game) (L : ResetLayout) :
    (resetGame g L).player.health = 100 := rfl

theorem update_health_bound (es : EmotionArgs → NPCEmotion) (u : ℚ → ℚ → ℚ × ℚ)
    (inp : TickInput) (g : Game)
    (h0 : 0 ≤ g.player.health) (h1 : g.player.health ≤ 100) :
    0 ≤ (update es u inp g).player.health ∧ (update es u inp g).player.health ≤ 100 := by
  unfold update updateR
  cases g.state
  · simp only []
    split_ifs <;> exact ⟨h0, h1⟩
  · simp only []
    have ht := playingTick_health_bound es u inp g h0 h1
    split_ifs <;>
      first
        | exact ht
        | exact ⟨by rw [resetGame_health]; try norm_num, by rw [resetGame_health]; try norm_num⟩
  · simp only []
    split_ifs <;> exact ⟨h0, h1⟩

/-- C2: along any run started by a reset, the player health stays within
0 to 100 at every tick: enemy contact damage is floored at 0 and healing is
capped at 100.  The companion record carries no health attribute in the
source, so the player is the only health-bearing entity of the claim. -/
theorem player_health_in_range (es : EmotionArgs → NPCEmotion) (u : ℚ → ℚ → ℚ × ℚ)
    (inps : ℕ → TickInput) (g : Game) (L : ResetLayout) :
    ∀ n, 0 ≤ (iterUpdate es u inps n (resetGame g L)).player.health ∧
         (iterUpdate es u inps n (resetGame g L)).player.health ≤ 100 := by
  intro n
  induction n with
  | zero =>
    constructor <;> simp [iterUpdate, resetGame_health]
  | succ n ih =>
    exact update_health_bound es u (inps n) _ ih.1 ih.2



/-! Door and counter preservation per phase. -/

theorem check_attack_door (g : Game) : (check_attack g).door = g.door := by
  unfold check_attack; split_ifs <;> rfl

theorem check_attack_grc (g : Game) :
    (check_attack g).resources_collected = g.resources_collected := by
  unfold check_attack; split_ifs <;> rfl

theorem evSpaceDown_door (inp : TickInput) (g : Game) :
    (evSpaceDown inp g).door = g.door := by
  unfold evSpaceDown; split_ifs <;> simp [check_attack_door]

theorem evSpaceDown_grc (inp : TickInput) (g : Game) :
    (evSpaceDown inp g).resources_collected = g.resources_collected := by
  unfold evSpaceDown; split_ifs <;> simp [check_attack_grc]

theorem evToggleDebug_door (inp : TickInput) (g : Game) :
    (evToggleDebug inp g).door = g.door := by
  unfold evToggleDebug; split_ifs <;> rfl

theorem evToggleDebug_grc (inp : TickInput) (g : Game) :
    (evToggleDebug inp g).resources_collected = g.resources_collected := by
  unfold evToggleDebug; split_ifs <;> rfl

theorem evKeyO_door_isOpen (inp : TickInput) (g : Game) :
    (evKeyO inp g).door.isOpen = (g.door.isOpen || (g.debug_mode && inp.keyO)) := by
  unfold evKeyO
  cases hd : g.debug_mode && inp.keyO <;> simp [hd]

theorem evKeyO_grc (inp : TickInput) (g : Game) :
    (evKeyO inp g).resources_collected = g.resources_collected := by
  unfold evKeyO; split_ifs <;> rfl

theorem evKey1_door (inp : TickInput) (g : Game) : (evKey1 inp g).door = g.door := by
  unfold evKey1; split_ifs <;> rfl

theorem evKey1_grc (inp : TickInput) (g : Game) :
    (evKey1 inp g).resources_collected = g.resources_collected := by
  unfold evKey1; split_ifs <;> rfl

theorem evKey2_door (inp : TickInput) (g : Game) : (evKey2 inp g).door = g.door := by
  unfold evKey2; split_ifs <;> rfl

theorem evKey2_grc (inp : TickInput) (g : Game) :
    (evKey2 inp g).resources_collected = g.resources_collected := by
  unfold evKey2; split_ifs <;> rfl

theorem evSpaceUp_door (inp : TickInput) (g : Game) : (evSpaceUp inp g).door = g.door := by
  unfold evSpaceUp; split_ifs <;> rfl

theorem evSpaceUp_grc (inp : TickInput) (g : Game) :
    (evSpaceUp inp g).resources_collected = g.resources_collected := by
  unfold evSpaceUp; split_ifs <;> rfl

theorem eventPhase_door_isOpen (inp : TickInput) (g : Game) :
    (eventPhase inp g).door.isOpen =
      (g.door.isOpen || ((evToggleDebug inp (evSpaceDown inp g)).debug_mode && inp.keyO)) := by
  unfold eventPhase
  rw [evSpaceUp_door, evKey2_door, evKey1_door, evKeyO_door_isOpen, evToggleDebug_door,
    evSpaceDown_door]

theorem eventPhase_grc (inp : TickInput) (g : Game) :
    (eventPhase inp g).resources_collected = g.resources_collected := by
  unfold eventPhase
  rw [evSpaceUp_grc, evKey2_grc, evKey1_grc, evKeyO_grc, evToggleDebug_grc, evSpaceDown_grc]

theorem check_door_door (now : ℚ) (g : Game) :
    (check_door_interaction now g).door = g.door := by
  simp only [check_door_interaction]; split_ifs <;> rfl

theorem check_door_grc (now : ℚ) (g : Game) :
    (check_door_interaction now g).resources_collected = g.resources_collected := by
  simp only [check_door_interaction]; split_ifs <;> rfl

theorem playerMovePhase_door (inp : TickInput) (g : Game) :
    (playerMovePhase inp g).door = g.door := by
  simp only [playerMovePhase]; split_ifs <;> simp [check_door_door]

theorem playerMovePhase_grc (inp : TickInput) (g : Game) :
    (playerMovePhase inp g).resources_collected = g.resources_collected := by
  simp only [playerMovePhase]; split_ifs <;> simp [check_door_grc]

theorem update_npc_emotion_door (es : EmotionArgs → NPCEmotion) (g : Game) :
    (update_npc_emotion es g).door = g.door := rfl

theorem update_npc_emotion_grc (es : EmotionArgs → NPCEmotion) (g : Game) :
    (update_npc_emotion es g).resources_collected = g.resources_collected := rfl

theorem update_npc_position_door (u : ℚ → ℚ → ℚ × ℚ) (g : Game) :
    (update_npc_position u g).door = g.door := rfl

theorem update_npc_position_grc (u : ℚ → ℚ → ℚ × ℚ) (g : Game) :
    (update_npc_position u g).resources_collected = g.resources_collected := rfl

theorem update_enemies_door (u : ℚ → ℚ → ℚ × ℚ) (f : ℕ → EnemyRand) (g : Game) :
    (update_enemies u f g).door = g.door := rfl

theorem update_enemies_grc (u : ℚ → ℚ → ℚ × ℚ) (f : ℕ → EnemyRand) (g : Game) :
    (update_enemies u f g).resources_collected = g.resources_collected := rfl

theorem check_exit_door (g : Game) : (check_exit_interaction g).door = g.door := by
  unfold check_exit_interaction; split_ifs <;> rfl

theorem check_exit_grc (g : Game) :
    (check_exit_interaction g).resources_collected = g.resources_collected := by
  unfold check_exit_interaction; split_ifs <;> rfl

theorem check_resource_collection_door (g : Game) :
    (check_resource_collection g).door.isOpen =
      (checkResourcesGo g.player.x g.player.y g.current_room g.resources
        { health := g.player.health, prc := g.player.resources_collected,
          grc := g.resources_collected, doorOpen := g.door.isOpen,
          unlock := g.door_unlock_effect }).2.doorOpen := rfl

theorem check_resource_collection_grc (g : Game) :
    (check_resource_collection g).resources_collected =
      (checkResourcesGo g.player.x g.player.y g.current_room g.resources
        { health := g.player.health, prc := g.player.resources_collected,
          grc := g.resources_collected, doorOpen := g.door.isOpen,
          unlock := g.door_unlock_effect }).2.grc := rfl

/-! Invariants of the resource collection fold. -/

theorem resGo_grc_mono (px py : ℚ) (room : ℕ) :
    ∀ (l : List ResourceE) (a : ResAcc), a.grc ≤ (checkResourcesGo px py room l a).2.grc := by
  intro l
  induction l with
  | nil => intro a; exact le_refl _
  | cons r rs ih =>
    intro a
    rw [resGo_snd_cons]
    split_ifs with h
    · refine le_trans ?_ (ih (resAccStep a))
      rw [resAccStep_grc]
      exact Nat.le_succ a.grc
    · exact ih a

theorem resGo_door_mono (px py : ℚ) (room : ℕ) :
    ∀ (l : List ResourceE) (a : ResAcc), a.doorOpen = true →
      (checkResourcesGo px py room l a).2.doorOpen = true := by
  intro l
  induction l with
  | nil => intro a h; exact h
  | cons r rs ih =>
    intro a h
    rw [resGo_snd_cons]
    split_ifs with hc
    · exact ih _ (by rw [resAccStep_doorOpen, h]; rfl)
    · exact ih a h

theorem resGo_door_src (px py : ℚ) (room : ℕ) :
    ∀ (l : List ResourceE) (a : ResAcc), (checkResourcesGo px py room l a).2.doorOpen = true →
      a.doorOpen = true ∨ (checkResourcesGo px py room l a).2.grc ≥ 2 := by
  intro l
  induction l with
  | nil => intro a h; exact Or.inl h
  | cons r rs ih =>
    intro a hop
    rw [resGo_snd_cons] at hop ⊢
    split_ifs at hop ⊢ with hc
    · rcases ih _ hop with h1 | h1
      · rw [resAccStep_doorOpen] at h1
        simp only [Bool.or_eq_true] at h1
        rcases h1 with h2 | h2
        · exact Or.inl h2
        · simp only [Bool.and_eq_true] at h2
          have hge : a.grc + 1 ≥ 2 := of_decide_eq_true h2.1
          exact Or.inr (le_trans hge (resGo_grc_mono px py room rs (resAccStep a)))
      · exact Or.inr h1
    · exact ih a hop

theorem resGo_cross (px py : ℚ) (room : ℕ) :
    ∀ (l : List ResourceE) (a : ResAcc), a.doorOpen = false → a.grc < 2 →
      (checkResourcesGo px py room l a).2.grc ≥ 2 →
      (checkResourcesGo px py room l a).2.doorOpen = true := by
  intro l
  induction l with
  | nil =>
    intro a h1 h2 h3
    rw [resGo_nil] at h3
    have h4 : a.grc ≥ 2 := h3
    exact absurd h4 (by omega)
  | cons r rs ih =>
    intro a h1 h2 h3
    rw [resGo_snd_cons] at h3 ⊢
    split_ifs at h3 ⊢ with hc
    · by_cases hcr : a.grc + 1 ≥ 2
      · refine resGo_door_mono px py room rs _ ?_
        rw [resAccStep_doorOpen, h1]
        simp [hcr]
      · refine ih _ ?_ ?_ h3
        · rw [resAccStep_doorOpen, h1]
          simp [hcr]
        · rw [resAccStep_grc]
          omega
    · exact ih a h1 h2 h3

/-! One update step and the door. -/

theorem updateR_playing_no_reset (es : EmotionArgs → NPCEmotion) (u : ℚ → ℚ → ℚ × ℚ)
    (inp : TickInput) (g : Game) (hs : g.state = GState.playing)
    (hnr : (updateR es u inp g).2 = false) :
    ¬ (playingTick es u inp g).player.health ≤ 0 := by
  intro hle
  have : (updateR es u inp g).2 = true := by
    simp only [updateR, hs]
    rw [if_pos hle]
  rw [this] at hnr
  cases hnr

theorem update_of_no_reset (es : EmotionArgs → NPCEmotion) (u : ℚ → ℚ → ℚ × ℚ)
    (inp : TickInput) (g : Game) (hs : g.state = GState.playing)
    (hnr : (updateR es u inp g).2 = false) :
    update es u inp g =
      (if (playingTick es u inp g).game_time_limit > 0 ∧
          (playingTick es u inp g).frame ≥ (playingTick es u inp g).game_time_limit * FPS then
        { playingTick es u inp g with state := GState.completed }
      else playingTick es u inp g) := by
  have hh := updateR_playing_no_reset es u inp g hs hnr
  simp only [update, updateR, hs]
  rw [if_neg hh]

theorem update_door_step (es : EmotionArgs → NPCEmotion) (u : ℚ → ℚ → ℚ × ℚ)
    (inp : TickInput) (g : Game) (hnr : (updateR es u inp g).2 = false) :
    (g.door.isOpen = true → (update es u inp g).door.isOpen = true) ∧
    ((update es u inp g).door.isOpen = true →
      g.door.isOpen = true ∨ (update es u inp g).resources_collected ≥ 2 ∨ inp.keyO = true) ∧
    (g.door.isOpen = false → g.resources_collected < 2 →
      (update es u inp g).resources_collected ≥ 2 →
      (update es u inp g).door.isOpen = true) := by
  cases hs : g.state
  case start_screen =>
    have hdoor : (update es u inp g).door = g.door := by
      simp only [update, updateR, hs]; split_ifs <;> rfl
    have hres : (update es u inp g).resources_collected = g.resources_collected := by
      simp only [update, updateR, hs]; split_ifs <;> rfl
    rw [hdoor, hres]
    exact ⟨fun h => h, fun h => Or.inl h, fun _ h2 h3 => absurd h3 (by omega)⟩
  case completed =>
    have hdoor : (update es u inp g).door = g.door := by
      simp only [update, updateR, hs]; split_ifs <;> rfl
    have hres : (update es u inp g).resources_collected = g.resources_collected := by
      simp only [update, updateR, hs]; split_ifs <;> rfl
    rw [hdoor, hres]
    exact ⟨fun h => h, fun h => Or.inl h, fun _ h2 h3 => absurd h3 (by omega)⟩
  case playing =>
    have hupd := update_of_no_reset es u inp g hs hnr
    have hdoor : (update es u inp g).door = (playingTick es u inp g).door := by
      rw [hupd]; split_ifs <;> rfl
    have hres : (update es u inp g).resources_collected =
        (playingTick es u inp g).resources_collected := by
      rw [hupd]; split_ifs <;> rfl
    have hPT : playingTick es u inp g =
        check_exit_interaction (check_resource_collection
          (update_enemies u inp.enemyRand (update_npc_position u (update_npc_emotion es
            (handle_playing_events inp
              { g with frame := g.frame + 1, lagged_player_action := g.player.action }))))) := rfl
    have hHPE : (handle_playing_events inp
        { g with frame := g.frame + 1, lagged_player_action := g.player.action }).door =
        (eventPhase inp { g with frame := g.frame + 1, lagged_player_action := g.player.action }).door := by
      unfold handle_playing_events
      rw [playerMovePhase_door]
    have hFdoor : (update_enemies u inp.enemyRand (update_npc_position u (update_npc_emotion es
        (handle_playing_events inp
          { g with frame := g.frame + 1, lagged_player_action := g.player.action })))).door.isOpen =
        (g.door.isOpen ||
          ((evToggleDebug inp (evSpaceDown inp
            { g with frame := g.frame + 1, lagged_player_action := g.player.action })).debug_mode &&
            inp.keyO)) := by
      rw [update_enemies_door, update_npc_position_door, update_npc_emotion_door, hHPE,
        eventPhase_door_isOpen]
    have hFgrc : (update_enemies u inp.enemyRand (update_npc_position u (update_npc_emotion es
        (handle_playing_events inp
          { g with frame := g.frame + 1, lagged_player_action := g.player.action })))).resources_collected =
        g.resources_collected := by
      rw [update_enemies_grc, update_npc_position_grc, update_npc_emotion_grc]
      unfold handle_playing_events
      rw [playerMovePhase_grc, eventPhase_grc]
    set gF := update_enemies u inp.enemyRand (update_npc_position u (update_npc_emotion es
      (handle_playing_events inp
        { g with frame := g.frame + 1, lagged_player_action := g.player.action }))) with hgF
    have hPdoor : (playingTick es u inp g).door.isOpen =
        (checkResourcesGo gF.player.x gF.player.y gF.current_room gF.resources
          { health := gF.player.health, prc := gF.player.resources_collected,
            grc := gF.resources_collected, doorOpen := gF.door.isOpen,
            unlock := gF.door_unlock_effect }).2.doorOpen := by
      rw [hPT]
      rw [show (check_exit_interaction (check_resource_collection gF)).door =
        (check_resource_collection gF).door from check_exit_door _]
      rw [check_resource_collection_door]
    have hPgrc : (playingTick es u inp g).resources_collected =
        (checkResourcesGo gF.player.x gF.player.y gF.current_room gF.resources
          { health := gF.player.health, prc := gF.player.resources_collected,
            grc := gF.resources_collected, doorOpen := gF.door.isOpen,
            unlock := gF.door_unlock_effect }).2.grc := by
      rw [hPT]
      rw [show (check_exit_interaction (check_resource_collection gF)).resources_collected =
        (check_resource_collection gF).resources_collected from check_exit_grc _]
      rw [check_resource_collection_grc]
    refine ⟨?_, ?_, ?_⟩
    · intro h
      rw [hdoor, hPdoor]
      exact resGo_door_mono _ _ _ _ _ (by simp only [hFdoor, h, Bool.true_or])
    · intro h
      rw [hdoor, hPdoor] at h
      rcases resGo_door_src _ _ _ _ _ h with h1 | h1
      · simp only [hFdoor, Bool.or_eq_true] at h1
        rcases h1 with h2 | h2
        · exact Or.inl h2
        · simp only [Bool.and_eq_true] at h2
          exact Or.inr (Or.inr h2.2)
      · refine Or.inr (Or.inl ?_)
        rw [hres, hPgrc]
        exact h1
    · intro hdf hlt hge
      rw [hres, hPgrc] at hge
      rw [hdoor, hPdoor]
      by_cases hb : gF.door.isOpen = true
      · exact resGo_door_mono _ _ _ _ _ (by simp only [hb])
      · have hb' : gF.door.isOpen = false := Bool.eq_false_iff.mpr hb
        refine resGo_cross _ _ _ _ _ ?_ ?_ hge
        · simp only [hb']
        · simp only [hFgrc]; exact hlt

theorem door_persist_aux (es : EmotionArgs → NPCEmotion) (u : ℚ → ℚ → ℚ × ℚ)
    (inps : ℕ → TickInput) (g : Game) (n : ℕ)
    (hrun : ∀ i, i < n → (updateR es u (inps i) (iterUpdate es u inps i g)).2 = false) :
    ∀ d i, i + d ≤ n → (iterUpdate es u inps i g).door.isOpen = true →
      (iterUpdate es u inps (i + d) g).door.isOpen = true := by
  intro d
  induction d with
  | zero => intro i h ht; exact ht
  | succ d ih =>
    intro i h ht
    have h1 : i + d < n := by omega
    have step := update_door_step es u (inps (i + d)) (iterUpdate es u inps (i + d) g)
      (hrun _ h1)
    exact step.1 (ih i (by omega) ht)

/-- C3 (amended): within a run (no reset along the trace), the door open
flag never returns from true to false, it persists once true (hence it
flips at most once), a false-to-true flip happens only at the resource
threshold or through the debug door key, and the flag does flip at the step
where the cumulative resource counter first reaches 2. -/
theorem door_open_transitions (es : EmotionArgs → NPCEmotion) (u : ℚ → ℚ → ℚ × ℚ)
    (inps : ℕ → TickInput) (g : Game) (n : ℕ)
    (hrun : ∀ i, i < n → (updateR es u (inps i) (iterUpdate es u inps i g)).2 = false) :
    (∀ i, i < n → (iterUpdate es u inps i g).door.isOpen = true →
        (iterUpdate es u inps (i + 1) g).door.isOpen = true) ∧
    (∀ i j, i < j → j ≤ n → (iterUpdate es u inps i g).door.isOpen = true →
        (iterUpdate es u inps j g).door.isOpen = true) ∧
    (∀ i, i < n → (iterUpdate es u inps i g).door.isOpen = false →
        (iterUpdate es u inps (i + 1) g).door.isOpen = true →
        (iterUpdate es u inps (i + 1) g).resources_collected ≥ 2 ∨ (inps i).keyO = true) ∧
    (∀ i, i < n → (iterUpdate es u inps i g).door.isOpen = false →
        (iterUpdate es u inps i g).resources_collected < 2 →
        (iterUpdate es u inps (i + 1) g).resources_collected ≥ 2 →
        (iterUpdate es u inps (i + 1) g).door.isOpen = true) ∧
    (∀ i j, i < j → j < n → (iterUpdate es u inps i g).door.isOpen = false →
        (iterUpdate es u inps (i + 1) g).door.isOpen = true →
        ¬((iterUpdate es u inps j g).door.isOpen = false ∧
          (iterUpdate es u inps (j + 1) g).door.isOpen = true)) := by
  have hpers := door_persist_aux es u inps g n hrun
  refine ⟨?_, ?_, ?_, ?_, ?_⟩
  · intro i hi ht
    exact (update_door_step es u (inps i) _ (hrun i hi)).1 ht
  · intro i j hij hjn ht
    have := hpers (j - i) i (by omega) ht
    rwa [show i + (j - i) = j by omega] at this
  · intro i hi hf ht
    rcases (update_door_step es u (inps i) _ (hrun i hi)).2.1 ht with h | h
    · rw [hf] at h; cases h
    · exact h
  · intro i hi hf hlt hge
    exact (update_door_step es u (inps i) _ (hrun i hi)).2.2 hf hlt hge
  · intro i j hij hjn hf ht
    rintro ⟨hjf, _⟩
    have := hpers (j - (i + 1)) (i + 1) (by omega) ht
    rw [show i + 1 + (j - (i + 1)) = j by omega] at this
    rw [this] at hjf
    cases hjf

/-- C3 counterexample: in debug mode, pressing the debug door key opens the
door in a tick with zero resources collected and no reset, refuting that a
false-to-true transition happens exactly at the resource threshold. -/
theorem door_debug_counterexample :
    gDbg.door.isOpen = false ∧
    (updateR ruleBasedEmotion unit0 inpKeyO gDbg).2 = false ∧
    (update ruleBasedEmotion unit0 inpKeyO gDbg).door.isOpen = true ∧
    (update ruleBasedEmotion unit0 inpKeyO gDbg).resources_collected = 0 := by
  refine ⟨rfl, ?_, ?_, ?_⟩ <;> with_unfolding_all decide

/-- Witness for the door transition theorem: one idle tick from baseGame. -/
theorem door_open_transitions_witness :
    (∀ i, i < 1 →
      (updateR ruleBasedEmotion unit0 (idleStream i)
        (iterUpdate ruleBasedEmotion unit0 idleStream i baseGame)).2 = false) ∧
    (∀ i, i < 1 → (iterUpdate ruleBasedEmotion unit0 idleStream i baseGame).door.isOpen = true →
        (iterUpdate ruleBasedEmotion unit0 idleStream (i + 1) baseGame).door.isOpen = true) :=
  have hh : ∀ i, i < 1 →
      (updateR ruleBasedEmotion unit0 (idleStream i)
        (iterUpdate ruleBasedEmotion unit0 idleStream i baseGame)).2 = false := by
    with_unfolding_all decide
  ⟨hh, (door_open_transitions ruleBasedEmotion unit0 idleStream baseGame 1 hh).1⟩


/-! Kill counting machinery. -/

theorem countFlips_cons (a b : Enemy) (as bs : List Enemy) :
    countFlips (a :: as) (b :: bs) = (if a.alive && !b.alive then 1 else 0) + countFlips as bs := rfl

theorem countFlips_refl : ∀ l : List Enemy, countFlips l l = 0 := by
  intro l
  induction l with
  | nil => rfl
  | cons e es ih =>
    rw [countFlips_cons, ih]
    cases he : e.alive <;> simp [he]

theorem flip_head_split : ∀ (x y z : Bool), (x = false → y = false) → (y = false → z = false) →
    (if x && !z then 1 else 0) = ((if x && !y then 1 else 0) + (if y && !z then 1 else 0) : ℕ) := by
  decide

theorem countFlips_trans (as : List Enemy) : ∀ (bs cs : List Enemy),
    as.length = bs.length → bs.length = cs.length →
    (∀ (j : ℕ) (ea eb : Enemy), as[j]? = some ea → bs[j]? = some eb →
      ea.alive = false → eb.alive = false) →
    (∀ (j : ℕ) (eb ec : Enemy), bs[j]? = some eb → cs[j]? = some ec →
      eb.alive = false → ec.alive = false) →
    countFlips as cs = countFlips as bs + countFlips bs cs := by
  induction as with
  | nil =>
    intro bs cs h1 h2 _ _
    cases bs with
    | nil =>
      cases cs with
      | nil => rfl
      | cons c cs => simp at h2
    | cons b bs => simp at h1
  | cons a as ih =>
    intro bs cs h1 h2 hab hbc
    cases bs with
    | nil => simp at h1
    | cons b bs =>
      cases cs with
      | nil => simp at h2
      | cons c cs =>
        rw [countFlips_cons, countFlips_cons, countFlips_cons]
        have hab0 : a.alive = false → b.alive = false :=
          fun h => hab 0 a b List.getElem?_cons_zero List.getElem?_cons_zero h
        have hbc0 : b.alive = false → c.alive = false :=
          fun h => hbc 0 b c List.getElem?_cons_zero List.getElem?_cons_zero h
        have htail := ih bs cs (Nat.succ.inj h1) (Nat.succ.inj h2)
          (fun j ea eb hja hjb => hab (j+1) ea eb
            (by rwa [List.getElem?_cons_succ]) (by rwa [List.getElem?_cons_succ]))
          (fun j eb ec hjb hjc => hbc (j+1) eb ec
            (by rwa [List.getElem?_cons_succ]) (by rwa [List.getElem?_cons_succ]))
        rw [htail, flip_head_split a.alive b.alive c.alive hab0 hbc0]
        omega

theorem countFlips_set (e' : Enemy) :
    ∀ (l : List Enemy) (i : ℕ) (e : Enemy), l[i]? = some e →
      countFlips l (l.set i e') = (if e.alive && !e'.alive then 1 else 0) := by
  intro l
  induction l with
  | nil => intro i e h; cases h
  | cons x xs ih =>
    intro i e h
    cases i with
    | zero =>
      rw [List.getElem?_cons_zero] at h
      have hx : x = e := Option.some.inj h
      subst hx
      rw [List.set_cons_zero, countFlips_cons, countFlips_refl]
      simp
    | succ j =>
      rw [List.getElem?_cons_succ] at h
      rw [List.set_cons_succ, countFlips_cons, ih j e h]
      cases hx : x.alive <;> simp [hx]

/-! check_attack lemmas. -/

theorem attackEnemy_dead (p : PlayerS) (room : ℕ) (e : Enemy) (h : e.alive = false) :
    attackEnemy p room e = (e, false) := by
  simp [attackEnemy, h]

theorem attackEnemy_flip (p : PlayerS) (room : ℕ) (e : Enemy) :
    (attackEnemy p room e).2 = (e.alive && !(attackEnemy p room e).1.alive) := by
  simp only [attackEnemy]
  split_ifs with hg hk
  · have he : e.alive = true := by
      simp only [Bool.and_eq_true] at hg
      exact hg.1.2
    simp [he]
  · have he : e.alive = true := by
      simp only [Bool.and_eq_true] at hg
      exact hg.1.2
    simp [he]
  · cases he : e.alive <;> simp [he]

theorem countFlips_map_attack (p : PlayerS) (room : ℕ) :
    ∀ l : List Enemy,
      countFlips l (l.map (fun e => (attackEnemy p room e).1)) =
        ((l.map (attackEnemy p room)).filter (fun q => q.2)).length := by
  intro l
  induction l with
  | nil => rfl
  | cons e es ih =>
    simp only [List.map_cons, List.filter_cons]
    rw [countFlips_cons, ← attackEnemy_flip p room e, ih]
    cases h : (attackEnemy p room e).2 <;> simp [h] <;> omega

theorem check_attack_enemies (g : Game) (ha : g.player.action = PlayerAction.attack) :
    (check_attack g).enemies = g.enemies.map (fun e => (attackEnemy g.player g.current_room e).1) := by
  simp only [check_attack, ha]
  simp [List.map_map, Function.comp]

theorem check_attack_killed_global (g : Game) :
    (check_attack g).enemies_killed = g.enemies_killed + countFlips g.enemies (check_attack g).enemies := by
  by_cases ha : g.player.action = PlayerAction.attack
  · rw [check_attack_enemies g ha, countFlips_map_attack]
    simp only [check_attack, ha]
    simp
  · simp only [check_attack]
    rw [if_neg ha, countFlips_refl]
    omega

theorem check_attack_killed_player (g : Game) :
    (check_attack g).player.enemies_killed =
      g.player.enemies_killed + countFlips g.enemies (check_attack g).enemies := by
  by_cases ha : g.player.action = PlayerAction.attack
  · rw [check_attack_enemies g ha, countFlips_map_attack]
    simp only [check_attack, ha]
    simp
  · simp only [check_attack]
    rw [if_neg ha, countFlips_refl]
    omega

theorem check_attack_dead_at (g : Game) (i : ℕ) (e : Enemy)
    (h : g.enemies[i]? = some e) (hd : e.alive = false) :
    (check_attack g).enemies[i]? = some e := by
  by_cases ha : g.player.action = PlayerAction.attack
  · rw [check_attack_enemies g ha, List.getElem?_map, h]
    simp [attackEnemy_dead g.player g.current_room e hd]
  · simp only [check_attack]
    rw [if_neg ha]
    exact h

theorem check_attack_length (g : Game) :
    (check_attack g).enemies.length = g.enemies.length := by
  by_cases ha : g.player.action = PlayerAction.attack
  · rw [check_attack_enemies g ha]; simp
  · simp only [check_attack]
    rw [if_neg ha]

theorem check_attack_hit (g : Game) (i : ℕ) (e : Enemy)
    (ha : g.player.action = PlayerAction.attack)
    (h : g.enemies[i]? = some e)
    (hg : (e.room == g.current_room && e.alive &&
      decide (dist2 g.player.x g.player.y e.x e.y < ATTACK_RADIUS^2)) = true) :
    (check_attack g).enemies[i]? =
      some (if e.health - PLAYER_DAMAGE ≤ 0 then
        { e with health := e.health - PLAYER_DAMAGE, alive := false }
      else { e with health := e.health - PLAYER_DAMAGE }) := by
  rw [check_attack_enemies g ha, List.getElem?_map, h, Option.map_some']
  simp only [attackEnemy]
  rw [if_pos hg]
  split_ifs <;> rfl


/-! The nearest alive enemy targeted by the npc attack reaction. -/

theorem foldl_acc_prop {α β : Type} (P : β → Prop) (Q : α → Prop) (f : β → α → β) :
    ∀ (l : List α) (b : β), (∀ a ∈ l, Q a) → P b →
      (∀ b a, P b → Q a → P (f b a)) → P (l.foldl f b) := by
  intro l
  induction l with
  | nil => intro b _ hb _; exact hb
  | cons x xs ih =>
    intro b hl hb hstep
    exact ih (f b x) (fun a ha => hl a (List.mem_cons_of_mem x ha))
      (hstep b x hb (hl x (List.mem_cons_self x xs))) hstep

theorem nearestAliveEnemy_spec (g : Game) :
    ∀ q, nearestAliveEnemy g = some q → q.2.1.alive = true ∧ g.enemies[q.1]? = some q.2.1 := by
  have h := foldl_acc_prop
    (fun o => ∀ q, o = some q → q.2.1.alive = true ∧ g.enemies[q.1]? = some q.2.1)
    (fun p => g.enemies[p.1]? = some p.2)
    (fun acc p =>
      if p.2.room == g.current_room && p.2.alive then
        let d2 := dist2 g.npc.x g.npc.y p.2.x p.2.y
        match acc with
        | none => some (p.1, p.2, d2)
        | some q => if d2 < q.2.2 then some (p.1, p.2, d2) else acc
      else acc)
    g.enemies.enum none
    (fun a ha => List.mem_enum_iff_getElem?.mp ha)
    (fun q hq => by cases hq)
    ?_
  · exact h
  · intro b a hP hQ
    dsimp only
    split_ifs with hg
    · have ha : a.2.alive = true := by
        simp only [Bool.and_eq_true] at hg
        exact hg.2
      cases b with
      | none =>
        intro q hq
        rw [← Option.some.inj hq]
        exact ⟨ha, hQ⟩
      | some q0 =>
        intro q hq
        dsimp only at hq
        split_ifs at hq with hd
        · rw [← Option.some.inj hq]
          exact ⟨ha, hQ⟩
        · exact hP q hq
    · exact hP

theorem enemyStep_snd_alive (u : ℚ → ℚ → ℚ × ℚ) (g : Game) (r : EnemyRand) (ph : ℚ) (e : Enemy) :
    (enemyStep u g r ph e).2.alive = e.alive := rfl

/-! The update_enemies loop and dead enemies. -/

theorem go_skip (u : ℚ → ℚ → ℚ × ℚ) (g : Game) (f : ℕ → EnemyRand)
    (e : Enemy) (es : List Enemy) (i : ℕ) (ph : ℚ) (hd : e.alive = false) :
    updateEnemiesGo u g f (e :: es) i ph =
      (e :: (updateEnemiesGo u g f es i ph).1, (updateEnemiesGo u g f es i ph).2) := by
  have hg : (e.room == g.current_room && e.alive) = false := by
    simp [hd]
  simp only [updateEnemiesGo, hg]
  simp

theorem go_dead_at (u : ℚ → ℚ → ℚ × ℚ) (g : Game) (f : ℕ → EnemyRand) :
    ∀ (l : List Enemy) (i : ℕ) (ph : ℚ) (j : ℕ) (e : Enemy),
      l[j]? = some e → e.alive = false →
      (updateEnemiesGo u g f l i ph).1[j]? = some e := by
  intro l
  induction l with
  | nil => intro i ph j e h; cases h
  | cons x xs ih =>
    intro i ph j e h hd
    cases j with
    | zero =>
      rw [List.getElem?_cons_zero] at h
      have hx : x = e := Option.some.inj h
      subst hx
      rw [go_skip u g f x xs i ph hd]
      exact List.getElem?_cons_zero
    | succ j =>
      rw [List.getElem?_cons_succ] at h
      simp only [updateEnemiesGo]
      split_ifs with hg
      · rw [List.getElem?_cons_succ]
        exact ih (i + 1) _ j e h hd
      · rw [List.getElem?_cons_succ]
        exact ih i ph j e h hd

theorem go_alive_at (u : ℚ → ℚ → ℚ × ℚ) (g : Game) (f : ℕ → EnemyRand) :
    ∀ (l : List Enemy) (i : ℕ) (ph : ℚ) (j : ℕ),
      ((updateEnemiesGo u g f l i ph).1[j]?).map (fun e => e.alive) =
        (l[j]?).map (fun e => e.alive) := by
  intro l
  induction l with
  | nil => intro i ph j; rfl
  | cons x xs ih =>
    intro i ph j
    simp only [updateEnemiesGo]
    split_ifs with hg
    · cases j with
      | zero =>
        rw [List.getElem?_cons_zero, List.getElem?_cons_zero]
        simp [enemyStep_snd_alive]
      | succ j =>
        rw [List.getElem?_cons_succ, List.getElem?_cons_succ]
        exact ih (i + 1) _ j
    · cases j with
      | zero => simp
      | succ j =>
        rw [List.getElem?_cons_succ, List.getElem?_cons_succ]
        exact ih i ph j

theorem go_flips (u : ℚ → ℚ → ℚ × ℚ) (g : Game) (f : ℕ → EnemyRand) :
    ∀ (l : List Enemy) (i : ℕ) (ph : ℚ),
      countFlips l (updateEnemiesGo u g f l i ph).1 = 0 := by
  intro l
  induction l with
  | nil => intro i ph; rfl
  | cons x xs ih =>
    intro i ph
    simp only [updateEnemiesGo]
    split_ifs with hg
    · rw [countFlips_cons, ih (i + 1)]
      have : (enemyStep u g (f i) ph x).2.alive = x.alive := enemyStep_snd_alive u g (f i) ph x
      rw [this]
      cases hx : x.alive <;> simp [hx]
    · rw [countFlips_cons, ih i]
      cases hx : x.alive <;> simp [hx]

theorem go_length (u : ℚ → ℚ → ℚ × ℚ) (g : Game) (f : ℕ → EnemyRand) :
    ∀ (l : List Enemy) (i : ℕ) (ph : ℚ),
      (updateEnemiesGo u g f l i ph).1.length = l.length := by
  intro l
  induction l with
  | nil => intro i ph; rfl
  | cons x xs ih =>
    intro i ph
    simp only [updateEnemiesGo]
    split_ifs with hg
    · simp only [List.length_cons, ih (i + 1)]
    · simp only [List.length_cons, ih i]


/-! npc attack reaction and the enemy list. -/

theorem npcBranch_flips (u : ℚ → ℚ → ℚ × ℚ) (g : Game) (cd : ℕ) :
    (npcBranch u g cd).killsDelta = countFlips g.enemies (npcBranch u g cd).enemies ∧
    (npcBranch u g cd).player.enemies_killed =
      g.player.enemies_killed + countFlips g.enemies (npcBranch u g cd).enemies := by
  rcases hr : g.npc.reaction <;> simp only [npcBranch, hr]
  case follow =>
    split_ifs <;> simp [countFlips_refl]
  case notify_resource =>
    split_ifs <;> simp [countFlips_refl]
  case notify_danger =>
    split_ifs <;> simp [countFlips_refl]
  case attack_enemy =>
    cases hn : nearestAliveEnemy g with
    | none => simp [countFlips_refl]
    | some q =>
      obtain ⟨ha, hget⟩ := nearestAliveEnemy_spec g q hn
      simp only []
      split_ifs with h1 h2 h3 h4
      · simp [countFlips_refl]
      · simp [countFlips_refl]
      · rw [countFlips_set _ g.enemies q.1 q.2.1 hget]
        simp [ha]
      · rw [countFlips_set _ g.enemies q.1 q.2.1 hget]
        cases hq : q.2.1.alive <;> simp [hq]
      · simp [countFlips_refl]
  case notify_surprise =>
    simp [countFlips_refl]
  case provide_healing =>
    split_ifs <;> simp [countFlips_refl]

theorem npcBranch_dead_at (u : ℚ → ℚ → ℚ × ℚ) (g : Game) (cd : ℕ) (i : ℕ) (e : Enemy)
    (h : g.enemies[i]? = some e) (hd : e.alive = false) :
    (npcBranch u g cd).enemies[i]? = some e := by
  rcases hr : g.npc.reaction <;> simp only [npcBranch, hr]
  case follow => split_ifs <;> exact h
  case notify_resource => split_ifs <;> exact h
  case notify_danger => split_ifs <;> exact h
  case attack_enemy =>
    cases hn : nearestAliveEnemy g with
    | none => exact h
    | some q =>
      obtain ⟨ha, hget⟩ := nearestAliveEnemy_spec g q hn
      have hne : q.1 ≠ i := by
        intro hqi
        rw [hqi, h] at hget
        rw [Option.some.inj hget] at hd
        rw [hd] at ha
        cases ha
      simp only []
      split_ifs <;> first
        | exact h
        | (rw [List.getElem?_set_ne hne]; exact h)
  case notify_surprise => exact h
  case provide_healing => split_ifs <;> exact h

theorem npcBranch_length (u : ℚ → ℚ → ℚ × ℚ) (g : Game) (cd : ℕ) :
    (npcBranch u g cd).enemies.length = g.enemies.length := by
  rcases hr : g.npc.reaction <;> simp only [npcBranch, hr]
  case follow => split_ifs <;> rfl
  case notify_resource => split_ifs <;> rfl
  case notify_danger => split_ifs <;> rfl
  case attack_enemy =>
    cases hn : nearestAliveEnemy g with
    | none => rfl
    | some q =>
      simp only []
      split_ifs <;> simp [List.length_set]
  case provide_healing => split_ifs <;> rfl

/-! Per phase preservation of the enemy list and kill counters. -/

theorem evToggleDebug_enemies (inp : TickInput) (g : Game) :
    (evToggleDebug inp g).enemies = g.enemies := by
  unfold evToggleDebug; split_ifs <;> rfl

theorem evToggleDebug_killedG (inp : TickInput) (g : Game) :
    (evToggleDebug inp g).enemies_killed = g.enemies_killed := by
  unfold evToggleDebug; split_ifs <;> rfl

theorem evToggleDebug_killedP (inp : TickInput) (g : Game) :
    (evToggleDebug inp g).player.enemies_killed = g.player.enemies_killed := by
  unfold evToggleDebug; split_ifs <;> rfl

theorem evKeyO_enemies (inp : TickInput) (g : Game) :
    (evKeyO inp g).enemies = g.enemies := by
  unfold evKeyO; split_ifs <;> rfl

theorem evKeyO_killedG (inp : TickInput) (g : Game) :
    (evKeyO inp g).enemies_killed = g.enemies_killed := by
  unfold evKeyO; split_ifs <;> rfl

theorem evKeyO_killedP (inp : TickInput) (g : Game) :
    (evKeyO inp g).player.enemies_killed = g.player.enemies_killed := by
  unfold evKeyO; split_ifs <;> rfl

theorem evKey1_enemies (inp : TickInput) (g : Game) :
    (evKey1 inp g).enemies = g.enemies := by
  unfold evKey1; split_ifs <;> rfl

theorem evKey1_killedG (inp : TickInput) (g : Game) :
    (evKey1 inp g).enemies_killed = g.enemies_killed := by
  unfold evKey1; split_ifs <;> rfl

theorem evKey1_killedP (inp : TickInput) (g : Game) :
    (evKey1 inp g).player.enemies_killed = g.player.enemies_killed := by
  unfold evKey1; split_ifs <;> rfl

theorem evKey2_enemies (inp : TickInput) (g : Game) :
    (evKey2 inp g).enemies = g.enemies := by
  unfold evKey2; split_ifs <;> rfl

theorem evKey2_killedG (inp : TickInput) (g : Game) :
    (evKey2 inp g).enemies_killed = g.enemies_killed := by
  unfold evKey2; split_ifs <;> rfl

theorem evKey2_killedP (inp : TickInput) (g : Game) :
    (evKey2 inp g).player.enemies_killed = g.player.enemies_killed := by
  unfold evKey2; split_ifs <;> rfl

theorem evSpaceUp_enemies (inp : TickInput) (g : Game) :
    (evSpaceUp inp g).enemies = g.enemies := by
  unfold evSpaceUp; split_ifs <;> rfl

theorem evSpaceUp_killedG (inp : TickInput) (g : Game) :
    (evSpaceUp inp g).enemies_killed = g.enemies_killed := by
  unfold evSpaceUp; split_ifs <;> rfl

theorem evSpaceUp_killedP (inp : TickInput) (g : Game) :
    (evSpaceUp inp g).player.enemies_killed = g.player.enemies_killed := by
  unfold evSpaceUp; split_ifs <;> rfl

theorem eventPhase_enemies (inp : TickInput) (g : Game) :
    (eventPhase inp g).enemies = (evSpaceDown inp g).enemies := by
  unfold eventPhase
  rw [evSpaceUp_enemies, evKey2_enemies, evKey1_enemies, evKeyO_enemies, evToggleDebug_enemies]

theorem eventPhase_killedG (inp : TickInput) (g : Game) :
    (eventPhase inp g).enemies_killed = (evSpaceDown inp g).enemies_killed := by
  unfold eventPhase
  rw [evSpaceUp_killedG, evKey2_killedG, evKey1_killedG, evKeyO_killedG, evToggleDebug_killedG]

theorem eventPhase_killedP (inp : TickInput) (g : Game) :
    (eventPhase inp g).player.enemies_killed = (evSpaceDown inp g).player.enemies_killed := by
  unfold eventPhase
  rw [evSpaceUp_killedP, evKey2_killedP, evKey1_killedP, evKeyO_killedP, evToggleDebug_killedP]

theorem check_door_enemies (now : ℚ) (g : Game) :
    (check_door_interaction now g).enemies = g.enemies := by
  simp only [check_door_interaction]; split_ifs <;> rfl

theorem check_door_killedP (now : ℚ) (g : Game) :
    (check_door_interaction now g).player.enemies_killed = g.player.enemies_killed := by
  simp only [check_door_interaction]; split_ifs <;> rfl

theorem check_door_killedG (now : ℚ) (g : Game) :
    (check_door_interaction now g).enemies_killed = g.enemies_killed := by
  simp only [check_door_interaction]; split_ifs <;> rfl

theorem playerMovePhase_enemies (inp : TickInput) (g : Game) :
    (playerMovePhase inp g).enemies = g.enemies := by
  simp only [playerMovePhase]; split_ifs <;> simp [check_door_enemies]

theorem playerMovePhase_killedG (inp : TickInput) (g : Game) :
    (playerMovePhase inp g).enemies_killed = g.enemies_killed := by
  simp only [playerMovePhase]; split_ifs <;> simp [check_door_killedG]

theorem playerMovePhase_killedP (inp : TickInput) (g : Game) :
    (playerMovePhase inp g).player.enemies_killed = g.player.enemies_killed := by
  simp only [playerMovePhase]; split_ifs <;> simp [check_door_killedP]

theorem hpe_enemies (inp : TickInput) (g : Game) :
    (handle_playing_events inp g).enemies = (evSpaceDown inp g).enemies := by
  unfold handle_playing_events
  rw [playerMovePhase_enemies, eventPhase_enemies]

theorem hpe_killedG (inp : TickInput) (g : Game) :
    (handle_playing_events inp g).enemies_killed = (evSpaceDown inp g).enemies_killed := by
  unfold handle_playing_events
  rw [playerMovePhase_killedG, eventPhase_killedG]

theorem hpe_killedP (inp : TickInput) (g : Game) :
    (handle_playing_events inp g).player.enemies_killed =
      (evSpaceDown inp g).player.enemies_killed := by
  unfold handle_playing_events
  rw [playerMovePhase_killedP, eventPhase_killedP]

theorem evSpaceDown_killedG (inp : TickInput) (g : Game) :
    (evSpaceDown inp g).enemies_killed =
      g.enemies_killed + countFlips g.enemies (evSpaceDown inp g).enemies := by
  unfold evSpaceDown
  split_ifs with h
  · exact check_attack_killed_global _
  · rw [countFlips_refl]
    omega

theorem evSpaceDown_killedP (inp : TickInput) (g : Game) :
    (evSpaceDown inp g).player.enemies_killed =
      g.player.enemies_killed + countFlips g.enemies (evSpaceDown inp g).enemies := by
  unfold evSpaceDown
  split_ifs with h
  · exact check_attack_killed_player _
  · rw [countFlips_refl]
    omega

theorem evSpaceDown_dead_at (inp : TickInput) (g : Game) (i : ℕ) (e : Enemy)
    (h : g.enemies[i]? = some e) (hd : e.alive = false) :
    (evSpaceDown inp g).enemies[i]? = some e := by
  unfold evSpaceDown
  split_ifs with hs
  · exact check_attack_dead_at _ i e h hd
  · exact h

theorem evSpaceDown_length (inp : TickInput) (g : Game) :
    (evSpaceDown inp g).enemies.length = g.enemies.length := by
  unfold evSpaceDown
  split_ifs with hs
  · exact check_attack_length _
  · rfl

theorem update_npc_emotion_enemies (es : EmotionArgs → NPCEmotion) (g : Game) :
    (update_npc_emotion es g).enemies = g.enemies := rfl

theorem update_npc_emotion_killedG (es : EmotionArgs → NPCEmotion) (g : Game) :
    (update_npc_emotion es g).enemies_killed = g.enemies_killed := rfl

theorem update_npc_emotion_killedP (es : EmotionArgs → NPCEmotion) (g : Game) :
    (update_npc_emotion es g).player.enemies_killed = g.player.enemies_killed := rfl

theorem update_npc_position_enemies (u : ℚ → ℚ → ℚ × ℚ) (g : Game) :
    (update_npc_position u g).enemies = (npcBranch u g (g.npc.attack_cooldown - 1)).enemies := rfl

theorem npcpos_killedG (u : ℚ → ℚ → ℚ × ℚ) (g : Game) :
    (update_npc_position u g).enemies_killed =
      g.enemies_killed + countFlips g.enemies (update_npc_position u g).enemies := by
  have h1 : (update_npc_position u g).enemies_killed =
      g.enemies_killed + (npcBranch u g (g.npc.attack_cooldown - 1)).killsDelta := rfl
  rw [h1, (npcBranch_flips u g (g.npc.attack_cooldown - 1)).1, update_npc_position_enemies]

theorem npcpos_killedP (u : ℚ → ℚ → ℚ × ℚ) (g : Game) :
    (update_npc_position u g).player.enemies_killed =
      g.player.enemies_killed + countFlips g.enemies (update_npc_position u g).enemies := by
  have h1 : (update_npc_position u g).player.enemies_killed =
      (npcBranch u g (g.npc.attack_cooldown - 1)).player.enemies_killed := rfl
  rw [h1, (npcBranch_flips u g (g.npc.attack_cooldown - 1)).2, update_npc_position_enemies]

theorem update_enemies_enemies (u : ℚ → ℚ → ℚ × ℚ) (f : ℕ → EnemyRand) (g : Game) :
    (update_enemies u f g).enemies = (updateEnemiesGo u g f g.enemies 0 g.player.health).1 := rfl

theorem update_enemies_killedG (u : ℚ → ℚ → ℚ × ℚ) (f : ℕ → EnemyRand) (g : Game) :
    (update_enemies u f g).enemies_killed = g.enemies_killed := rfl

theorem update_enemies_killedP (u : ℚ → ℚ → ℚ × ℚ) (f : ℕ → EnemyRand) (g : Game) :
    (update_enemies u f g).player.enemies_killed = g.player.enemies_killed := rfl

theorem check_resource_collection_enemies (g : Game) :
    (check_resource_collection g).enemies = g.enemies := rfl

theorem check_resource_collection_killedG (g : Game) :
    (check_resource_collection g).enemies_killed = g.enemies_killed := rfl

theorem check_resource_collection_killedP (g : Game) :
    (check_resource_collection g).player.enemies_killed = g.player.enemies_killed := rfl

theorem check_exit_enemies (g : Game) :
    (check_exit_interaction g).enemies = g.enemies := by
  unfold check_exit_interaction; split_ifs <;> rfl

theorem check_exit_killedG (g : Game) :
    (check_exit_interaction g).enemies_killed = g.enemies_killed := by
  unfold check_exit_interaction; split_ifs <;> rfl

theorem check_exit_killedP (g : Game) :
    (check_exit_interaction g).player.enemies_killed = g.player.enemies_killed := by
  unfold check_exit_interaction; split_ifs <;> rfl

/-! Converting pointwise dead preservation into the monotonicity shape. -/

theorem dead_mono_of_preserve (X Y : List Enemy)
    (hp : ∀ (j : ℕ) (e : Enemy), X[j]? = some e → e.alive = false → Y[j]? = some e) :
    ∀ (j : ℕ) (ea eb : Enemy), X[j]? = some ea → Y[j]? = some eb →
      ea.alive = false → eb.alive = false := by
  intro j ea eb hxa hyb hd
  have h := hp j ea hxa hd
  rw [h] at hyb
  rw [← Option.some.inj hyb]
  exact hd

theorem dead_mono_of_alive_eq (X Y : List Enemy)
    (hp : ∀ j : ℕ, (Y[j]?).map (fun e => e.alive) = (X[j]?).map (fun e => e.alive)) :
    ∀ (j : ℕ) (ea eb : Enemy), X[j]? = some ea → Y[j]? = some eb →
      ea.alive = false → eb.alive = false := by
  intro j ea eb hxa hyb hd
  have h := hp j
  rw [hxa, hyb] at h
  simp only [Option.map_some'] at h
  rw [Option.some.inj h]
  exact hd

theorem dead_mono_trans (X Y Z : List Enemy) (hlen : X.length = Y.length)
    (h1 : ∀ (j : ℕ) (ea eb : Enemy), X[j]? = some ea → Y[j]? = some eb →
      ea.alive = false → eb.alive = false)
    (h2 : ∀ (j : ℕ) (eb ec : Enemy), Y[j]? = some eb → Z[j]? = some ec →
      eb.alive = false → ec.alive = false) :
    ∀ (j : ℕ) (ea ec : Enemy), X[j]? = some ea → Z[j]? = some ec →
      ea.alive = false → ec.alive = false := by
  intro j ea ec hxa hzc hd
  have hj : j < X.length := by
    by_contra hge
    rw [List.getElem?_eq_none (by omega)] at hxa
    cases hxa
  have hjy : j < Y.length := by omega
  have hy : Y[j]? = some (Y.get (Fin.mk j hjy)) := List.getElem?_eq_getElem hjy
  exact h2 j _ ec hy hzc (h1 j ea _ hxa hy hd)


/-- C6: a dead enemy is skipped whole by the enemy loop (no movement, no
contact damage, no random draw), its record survives any no-reset tick
unchanged, and within such a tick both kill counters advance by exactly the
number of alive-to-dead flips of the enemy list, so no enemy is ever
counted twice. -/
theorem dead_enemy_permanence :
    (∀ (u : ℚ → ℚ → ℚ × ℚ) (g : Game) (f : ℕ → EnemyRand) (e : Enemy) (es : List Enemy)
        (i : ℕ) (ph : ℚ),
        e.alive = false →
        updateEnemiesGo u g f (e :: es) i ph =
          (e :: (updateEnemiesGo u g f es i ph).1, (updateEnemiesGo u g f es i ph).2)) ∧
    (∀ (es : EmotionArgs → NPCEmotion) (u : ℚ → ℚ → ℚ × ℚ) (inp : TickInput) (g : Game)
        (i : ℕ) (e : Enemy),
        (updateR es u inp g).2 = false →
        g.enemies[i]? = some e → e.alive = false →
        (update es u inp g).enemies[i]? = some e) ∧
    (∀ (es : EmotionArgs → NPCEmotion) (u : ℚ → ℚ → ℚ × ℚ) (inp : TickInput) (g : Game),
        (updateR es u inp g).2 = false →
        (update es u inp g).enemies_killed =
          g.enemies_killed + countFlips g.enemies (update es u inp g).enemies ∧
        (update es u inp g).player.enemies_killed =
          g.player.enemies_killed + countFlips g.enemies (update es u inp g).enemies) := by
  refine ⟨?_, ?_, ?_⟩
  · exact fun u g f e es i ph hd => go_skip u g f e es i ph hd
  · intro es u inp g i e hnr hget hd
    cases hs : g.state
    case start_screen =>
      have he : (update es u inp g).enemies = g.enemies := by
        simp only [update, updateR, hs]; split_ifs <;> rfl
      rw [he]; exact hget
    case completed =>
      have he : (update es u inp g).enemies = g.enemies := by
        simp only [update, updateR, hs]; split_ifs <;> rfl
      rw [he]; exact hget
    case playing =>
      have hupd := update_of_no_reset es u inp g hs hnr
      have he : (update es u inp g).enemies = (playingTick es u inp g).enemies := by
        rw [hupd]; split_ifs <;> rfl
      set gA := { g with frame := g.frame + 1, lagged_player_action := g.player.action } with hgA
      set gB := handle_playing_events inp gA with hgB
      set gC := update_npc_emotion es gB with hgC
      set gD := update_npc_position u gC with hgD
      set gE := update_enemies u inp.enemyRand gD with hgE
      have hPT : playingTick es u inp g = check_exit_interaction (check_resource_collection gE) := rfl
      have hCenem : gC.enemies = gB.enemies := by rw [hgC, update_npc_emotion_enemies]
      have hB : gB.enemies[i]? = some e := by
        rw [hgB, hpe_enemies]
        exact evSpaceDown_dead_at inp gA i e hget hd
      have hD : gD.enemies[i]? = some e := by
        rw [hgD, update_npc_position_enemies]
        exact npcBranch_dead_at u gC _ i e (by rw [hCenem]; exact hB) hd
      have hE : gE.enemies[i]? = some e := by
        rw [hgE, update_enemies_enemies]
        exact go_dead_at u gD inp.enemyRand gD.enemies 0 gD.player.health i e hD hd
      rw [he, hPT, check_exit_enemies, check_resource_collection_enemies]
      exact hE
  · intro es u inp g hnr
    cases hs : g.state
    case start_screen =>
      have he : (update es u inp g).enemies = g.enemies := by
        simp only [update, updateR, hs]; split_ifs <;> rfl
      have hkG : (update es u inp g).enemies_killed = g.enemies_killed := by
        simp only [update, updateR, hs]; split_ifs <;> rfl
      have hkP : (update es u inp g).player.enemies_killed = g.player.enemies_killed := by
        simp only [update, updateR, hs]; split_ifs <;> rfl
      rw [he, hkG, hkP, countFlips_refl]
      constructor <;> omega
    case completed =>
      have he : (update es u inp g).enemies = g.enemies := by
        simp only [update, updateR, hs]; split_ifs <;> rfl
      have hkG : (update es u inp g).enemies_killed = g.enemies_killed := by
        simp only [update, updateR, hs]; split_ifs <;> rfl
      have hkP : (update es u inp g).player.enemies_killed = g.player.enemies_killed := by
        simp only [update, updateR, hs]; split_ifs <;> rfl
      rw [he, hkG, hkP, countFlips_refl]
      constructor <;> omega
    case playing =>
      have hupd := update_of_no_reset es u inp g hs hnr
      have he : (update es u inp g).enemies = (playingTick es u inp g).enemies := by
        rw [hupd]; split_ifs <;> rfl
      have hkG : (update es u inp g).enemies_killed = (playingTick es u inp g).enemies_killed := by
        rw [hupd]; split_ifs <;> rfl
      have hkP : (update es u inp g).player.enemies_killed =
          (playingTick es u inp g).player.enemies_killed := by
        rw [hupd]; split_ifs <;> rfl
      set gA := { g with frame := g.frame + 1, lagged_player_action := g.player.action } with hgA
      set gB := handle_playing_events inp gA with hgB
      set gC := update_npc_emotion es gB with hgC
      set gD := update_npc_position u gC with hgD
      set gE := update_enemies u inp.enemyRand gD with hgE
      have hPT : playingTick es u inp g = check_exit_interaction (check_resource_collection gE) := rfl
      have hCenem : gC.enemies = gB.enemies := by rw [hgC, update_npc_emotion_enemies]
      have hCkG : gC.enemies_killed = gB.enemies_killed := by rw [hgC]; rfl
      have hCkP : gC.player.enemies_killed = gB.player.enemies_killed := by rw [hgC]; rfl
      have hBkG : gB.enemies_killed = g.enemies_killed + countFlips g.enemies gB.enemies := by
        rw [hgB, hpe_killedG, hpe_enemies]
        exact evSpaceDown_killedG inp gA
      have hBkP : gB.player.enemies_killed =
          g.player.enemies_killed + countFlips g.enemies gB.enemies := by
        rw [hgB, hpe_killedP, hpe_enemies]
        exact evSpaceDown_killedP inp gA
      have hDkG : gD.enemies_killed = gC.enemies_killed + countFlips gC.enemies gD.enemies := by
        rw [hgD]; exact npcpos_killedG u gC
      have hDkP : gD.player.enemies_killed =
          gC.player.enemies_killed + countFlips gC.enemies gD.enemies := by
        rw [hgD]; exact npcpos_killedP u gC
      have hEkG : gE.enemies_killed = gD.enemies_killed := by rw [hgE]; rfl
      have hEkP : gE.player.enemies_killed = gD.player.enemies_killed := by rw [hgE]; rfl
      have hflipsDE : countFlips gD.enemies gE.enemies = 0 := by
        rw [hgE, update_enemies_enemies]
        exact go_flips u gD inp.enemyRand gD.enemies 0 gD.player.health
      have hlen0B : g.enemies.length = gB.enemies.length := by
        rw [hgB, hpe_enemies]
        exact (evSpaceDown_length inp gA).symm
      have hlenBD : gB.enemies.length = gD.enemies.length := by
        rw [hgD, update_npc_position_enemies, ← hCenem]
        exact (npcBranch_length u gC _).symm
      have hlenDE : gD.enemies.length = gE.enemies.length := by
        rw [hgE, update_enemies_enemies]
        exact (go_length u gD inp.enemyRand gD.enemies 0 gD.player.health).symm
      have m0B := dead_mono_of_preserve g.enemies gB.enemies
        (fun j e hj hd => by
          rw [hgB, hpe_enemies]
          exact evSpaceDown_dead_at inp gA j e hj hd)
      have mBD := dead_mono_of_preserve gB.enemies gD.enemies
        (fun j e hj hd => by
          rw [hgD, update_npc_position_enemies]
          exact npcBranch_dead_at u gC _ j e (by rw [hCenem]; exact hj) hd)
      have mDE := dead_mono_of_alive_eq gD.enemies gE.enemies
        (fun j => by
          rw [hgE, update_enemies_enemies]
          exact go_alive_at u gD inp.enemyRand gD.enemies 0 gD.player.health j)
      have mBE := dead_mono_trans gB.enemies gD.enemies gE.enemies hlenBD mBD mDE
      have t1 := countFlips_trans g.enemies gB.enemies gE.enemies hlen0B
        (hlenBD.trans hlenDE) m0B mBE
      have t2 := countFlips_trans gB.enemies gD.enemies gE.enemies hlenBD hlenDE mBD mDE
      have hfin : (update es u inp g).enemies = gE.enemies := by
        rw [he, hPT, check_exit_enemies, check_resource_collection_enemies]
      have hfinKG : (update es u inp g).enemies_killed = gE.enemies_killed := by
        rw [hkG, hPT, check_exit_killedG, check_resource_collection_killedG]
      have hfinKP : (update es u inp g).player.enemies_killed = gE.player.enemies_killed := by
        rw [hkP, hPT, check_exit_killedP, check_resource_collection_killedP]
      constructor
      · rw [hfinKG, hEkG, hDkG, hCkG, hBkG, hCenem, hfin, t1, t2, hflipsDE]
        omega
      · rw [hfinKP, hEkP, hDkP, hCkP, hBkP, hCenem, hfin, t1, t2, hflipsDE]
        omega

/-- Witness for the dead enemy theorem: one idle no-reset tick on a state
with a single dead enemy. -/
theorem dead_enemy_permanence_witness :
    (eDead.alive = false ∧
      updateEnemiesGo unit0 gDead (fun _ => constRand) [eDead] 0 100 =
        (eDead :: (updateEnemiesGo unit0 gDead (fun _ => constRand) [] 0 100).1,
          (updateEnemiesGo unit0 gDead (fun _ => constRand) [] 0 100).2)) ∧
    ((updateR ruleBasedEmotion unit0 idleInput gDead).2 = false ∧
      gDead.enemies[0]? = some eDead ∧
      (update ruleBasedEmotion unit0 idleInput gDead).enemies[0]? = some eDead) ∧
    (update ruleBasedEmotion unit0 idleInput gDead).enemies_killed =
      gDead.enemies_killed +
        countFlips gDead.enemies (update ruleBasedEmotion unit0 idleInput gDead).enemies := by
  have h1 : eDead.alive = false := rfl
  have hnr : (updateR ruleBasedEmotion unit0 idleInput gDead).2 = false := by
    with_unfolding_all decide
  have hget : gDead.enemies[0]? = some eDead := by with_unfolding_all decide
  exact ⟨⟨h1, dead_enemy_permanence.1 unit0 gDead (fun _ => constRand) eDead [] 0 100 h1⟩,
    ⟨hnr, hget, dead_enemy_permanence.2.1 ruleBasedEmotion unit0 idleInput gDead 0 eDead hnr hget h1⟩,
    (dead_enemy_permanence.2.2 ruleBasedEmotion unit0 idleInput gDead hnr).1⟩

/-- C5 counterexample: the attack action held from an earlier tick (no new
space keydown event this tick) deals no damage to an adjacent alive enemy,
refuting damage on every tick whose intent is Attack. -/
theorem attack_held_no_damage_counterexample :
    gHeld.player.action = PlayerAction.attack ∧
    gHeld.enemies = [eNear] ∧
    eNear.alive = true ∧
    eNear.room = gHeld.current_room ∧
    dist2 gHeld.player.x gHeld.player.y eNear.x eNear.y < ATTACK_RADIUS^2 ∧
    (updateR ruleBasedEmotion unit0 idleInput gHeld).2 = false ∧
    (update ruleBasedEmotion unit0 idleInput gHeld).enemies = [eNear] := by
  refine ⟨rfl, rfl, rfl, rfl, ?_, ?_, ?_⟩
  · norm_num [dist2, gHeld, baseGame, eNear, ATTACK_RADIUS]
  · with_unfolding_all decide
  · with_unfolding_all decide

/-- C5 (amended): on a tick with a space keydown event the player attack
fires: every alive enemy of the current room within the attack radius takes
PLAYER_DAMAGE, a kill deactivates it, and both kill counters advance by the
number of kills; an enemy whose health is at most PLAYER_DAMAGE (always
true, health starts at 100) ends such a tick dead. -/
theorem attack_on_keydown :
    (∀ (g : Game) (i : ℕ) (e : Enemy),
        g.player.action = PlayerAction.attack →
        g.enemies[i]? = some e →
        (e.room == g.current_room && e.alive &&
          decide (dist2 g.player.x g.player.y e.x e.y < ATTACK_RADIUS^2)) = true →
        (check_attack g).enemies[i]? =
          some (if e.health - PLAYER_DAMAGE ≤ 0 then
            { e with health := e.health - PLAYER_DAMAGE, alive := false }
          else { e with health := e.health - PLAYER_DAMAGE }) ∧
        (check_attack g).enemies_killed =
          g.enemies_killed + countFlips g.enemies (check_attack g).enemies ∧
        (check_attack g).player.enemies_killed =
          g.player.enemies_killed + countFlips g.enemies (check_attack g).enemies) ∧
    (∀ (es : EmotionArgs → NPCEmotion) (u : ℚ → ℚ → ℚ × ℚ) (inp : TickInput) (g : Game)
        (i : ℕ) (e : Enemy),
        g.state = GState.playing →
        inp.spaceDown = true →
        (updateR es u inp g).2 = false →
        g.enemies[i]? = some e →
        (e.room == g.current_room && e.alive &&
          decide (dist2 g.player.x g.player.y e.x e.y < ATTACK_RADIUS^2)) = true →
        e.health ≤ PLAYER_DAMAGE →
        ((update es u inp g).enemies[i]?).map (fun x => x.alive) = some false) := by
  constructor
  · intro g i e ha hget hg
    exact ⟨check_attack_hit g i e ha hget hg, check_attack_killed_global g,
      check_attack_killed_player g⟩
  · intro es u inp g i e hs hsd hnr hget hg hh
    have hupd := update_of_no_reset es u inp g hs hnr
    have he : (update es u inp g).enemies = (playingTick es u inp g).enemies := by
      rw [hupd]; split_ifs <;> rfl
    set gA := { g with frame := g.frame + 1, lagged_player_action := g.player.action } with hgA
    set gB := handle_playing_events inp gA with hgB
    set gC := update_npc_emotion es gB with hgC
    set gD := update_npc_position u gC with hgD
    set gE := update_enemies u inp.enemyRand gD with hgE
    have hPT : playingTick es u inp g = check_exit_interaction (check_resource_collection gE) := rfl
    have hCenem : gC.enemies = gB.enemies := by rw [hgC, update_npc_emotion_enemies]
    have hsd' : evSpaceDown inp gA =
        check_attack { gA with player := { gA.player with action := PlayerAction.attack } } := by
      unfold evSpaceDown
      rw [if_pos hsd]
    have hle : e.health - PLAYER_DAMAGE ≤ 0 := by linarith
    have hB : gB.enemies[i]? =
        some { e with health := e.health - PLAYER_DAMAGE, alive := false } := by
      rw [hgB, hpe_enemies, hsd']
      have := check_attack_hit
        { gA with player := { gA.player with action := PlayerAction.attack } } i e rfl hget hg
      rw [if_pos hle] at this
      exact this
    have hd : ({ e with health := e.health - PLAYER_DAMAGE, alive := false } : Enemy).alive = false := rfl
    have hD : gD.enemies[i]? =
        some { e with health := e.health - PLAYER_DAMAGE, alive := false } := by
      rw [hgD, update_npc_position_enemies]
      exact npcBranch_dead_at u gC _ i _ (by rw [hCenem]; exact hB) hd
    have hE : gE.enemies[i]? =
        some { e with health := e.health - PLAYER_DAMAGE, alive := false } := by
      rw [hgE, update_enemies_enemies]
      exact go_dead_at u gD inp.enemyRand gD.enemies 0 gD.player.health i _ hD hd
    rw [he, hPT, check_exit_enemies, check_resource_collection_enemies, hE]
    rfl

/-- Witness for the keydown attack theorem: the adjacent enemy of gHeld is
killed by the tick carrying the space keydown event. -/
theorem attack_on_keydown_witness :
    (gHeld.player.action = PlayerAction.attack ∧
      gHeld.enemies[0]? = some eNear ∧
      (eNear.room == gHeld.current_room && eNear.alive &&
        decide (dist2 gHeld.player.x gHeld.player.y eNear.x eNear.y < ATTACK_RADIUS^2)) = true ∧
      (check_attack gHeld).enemies[0]? =
        some (if eNear.health - PLAYER_DAMAGE ≤ 0 then
          { eNear with health := eNear.health - PLAYER_DAMAGE, alive := false }
        else { eNear with health := eNear.health - PLAYER_DAMAGE })) ∧
    (gHeld.state = GState.playing ∧
      inpSpace.spaceDown = true ∧
      (updateR ruleBasedEmotion unit0 inpSpace gHeld).2 = false ∧
      eNear.health ≤ PLAYER_DAMAGE ∧
      ((update ruleBasedEmotion unit0 inpSpace gHeld).enemies[0]?).map (fun x => x.alive) =
        some false) := by
  have hget : gHeld.enemies[0]? = some eNear := by with_unfolding_all decide
  have hg : (eNear.room == gHeld.current_room && eNear.alive &&
      decide (dist2 gHeld.player.x gHeld.player.y eNear.x eNear.y < ATTACK_RADIUS^2)) = true := by
    with_unfolding_all decide
  have hnr : (updateR ruleBasedEmotion unit0 inpSpace gHeld).2 = false := by
    with_unfolding_all decide
  have hhp : eNear.health ≤ PLAYER_DAMAGE := by norm_num [eNear, PLAYER_DAMAGE]
  exact ⟨⟨rfl, hget, hg, (attack_on_keydown.1 gHeld 0 eNear rfl hget hg).1⟩,
    ⟨rfl, rfl, hnr, hhp,
      attack_on_keydown.2 ruleBasedEmotion unit0 inpSpace gHeld 0 eNear rfl rfl hnr hget hg hhp⟩⟩

lemma valid_move_false_iff (g : Game) (x y size : ℚ) :
    is_valid_move g x y size = false ↔
      ∃ o ∈ g.obstaclesOf, dist2 x y o.1 o.2 < ((OBSTACLE_SIZE + size) / 2)^2 := by
  rw [Bool.eq_false_iff]
  simp [is_valid_move, List.all_eq_true, not_le]

/-- C7: a tentative position whose center is strictly closer than the
combined half sizes to an obstacle center of the current room is exactly an
invalid one; on such a rejection the player reverts to the pre-tick
position (away from an open door, inside the room bounds, where the clamp
is inert), and so does the npc when its branch proposed a move. -/
theorem obstacle_rejection :
    (∀ (g : Game) (x y size : ℚ),
        is_valid_move g x y size = false ↔
          ∃ o ∈ g.obstaclesOf, dist2 x y o.1 o.2 < ((OBSTACLE_SIZE + size) / 2)^2) ∧
    (∀ (inp : TickInput) (g : Game),
        is_valid_move g (playerTentative inp g.player).1 (playerTentative inp g.player).2.1
          PLAYER_SIZE = false →
        (is_player_at_door g && g.door.isOpen) = false →
        g.roomOf.x + PLAYER_SIZE / 2 ≤ g.player.x →
        g.player.x ≤ g.roomOf.x + g.roomOf.width - PLAYER_SIZE / 2 →
        g.roomOf.y + PLAYER_SIZE / 2 ≤ g.player.y →
        g.player.y ≤ g.roomOf.y + g.roomOf.height - PLAYER_SIZE / 2 →
        (playerMovePhase inp g).player.x = g.player.x ∧
          (playerMovePhase inp g).player.y = g.player.y) ∧
    (∀ (u : ℚ → ℚ → ℚ × ℚ) (g : Game),
        (npcBranch u g (g.npc.attack_cooldown - 1)).moved = true →
        is_valid_move g (npcBranch u g (g.npc.attack_cooldown - 1)).nx
          (npcBranch u g (g.npc.attack_cooldown - 1)).ny NPC_SIZE = false →
        g.roomOf.x + NPC_SIZE / 2 ≤ g.npc.x →
        g.npc.x ≤ g.roomOf.x + g.roomOf.width - NPC_SIZE / 2 →
        g.roomOf.y + NPC_SIZE / 2 ≤ g.npc.y →
        g.npc.y ≤ g.roomOf.y + g.roomOf.height - NPC_SIZE / 2 →
        (update_npc_position u g).npc.x = g.npc.x ∧
          (update_npc_position u g).npc.y = g.npc.y) := by
  refine ⟨valid_move_false_iff, ?_, ?_⟩
  · intro inp g hv hdoor hx1 hx2 hy1 hy2
    have hpd : ∀ (a : PlayerAction),
        is_player_at_door
          { g with player := { g.player with x := g.player.x, y := g.player.y, action := a } } =
          is_player_at_door g := fun a => rfl
    have hroom : ∀ (p : PlayerS), Game.roomOf { g with player := p } = g.roomOf := fun p => rfl
    simp only [playerMovePhase, hv, Bool.false_eq_true, if_false]
    rw [hpd, hdoor]
    simp only [Bool.false_eq_true, if_false, hroom]
    rw [min_eq_left hx2, max_eq_right hx1, min_eq_left hy2, max_eq_right hy1]
    exact ⟨rfl, rfl⟩
  · intro u g hm hv hx1 hx2 hy1 hy2
    simp only [update_npc_position, hv, Bool.false_eq_true, if_false, hm,
      eq_self_iff_true, if_true]
    rw [min_eq_left hx2, max_eq_right hx1, min_eq_left hy2, max_eq_right hy1]
    exact ⟨rfl, rfl⟩

/-- Witness for the obstacle rejection theorem: a player pressing up into
an obstacle and an npc whose follow step is blocked both stay put. -/
theorem obstacle_rejection_witness :
    (is_valid_move gObs (playerTentative inpUp gObs.player).1
        (playerTentative inpUp gObs.player).2.1 PLAYER_SIZE = false ∧
      (is_player_at_door gObs && gObs.door.isOpen) = false ∧
      (playerMovePhase inpUp gObs).player.x = gObs.player.x ∧
      (playerMovePhase inpUp gObs).player.y = gObs.player.y) ∧
    ((npcBranch unitX gNpcObs (gNpcObs.npc.attack_cooldown - 1)).moved = true ∧
      is_valid_move gNpcObs (npcBranch unitX gNpcObs (gNpcObs.npc.attack_cooldown - 1)).nx
        (npcBranch unitX gNpcObs (gNpcObs.npc.attack_cooldown - 1)).ny NPC_SIZE = false ∧
      (update_npc_position unitX gNpcObs).npc.x = gNpcObs.npc.x ∧
      (update_npc_position unitX gNpcObs).npc.y = gNpcObs.npc.y) := by
  have hv1 : is_valid_move gObs (playerTentative inpUp gObs.player).1
      (playerTentative inpUp gObs.player).2.1 PLAYER_SIZE = false := by
    with_unfolding_all decide
  have hd1 : (is_player_at_door gObs && gObs.door.isOpen) = false := by
    with_unfolding_all decide
  have hm : (npcBranch unitX gNpcObs (gNpcObs.npc.attack_cooldown - 1)).moved = true := by
    with_unfolding_all decide
  have hv2 : is_valid_move gNpcObs (npcBranch unitX gNpcObs (gNpcObs.npc.attack_cooldown - 1)).nx
      (npcBranch unitX gNpcObs (gNpcObs.npc.attack_cooldown - 1)).ny NPC_SIZE = false := by
    with_unfolding_all decide
  have hp := obstacle_rejection.2.1 inpUp gObs hv1 hd1
    (by with_unfolding_all decide) (by with_unfolding_all decide)
    (by with_unfolding_all decide) (by with_unfolding_all decide)
  have hn := obstacle_rejection.2.2 unitX gNpcObs hm hv2
    (by with_unfolding_all decide) (by with_unfolding_all decide)
    (by with_unfolding_all decide) (by with_unfolding_all decide)
  exact ⟨⟨hv1, hd1, hp.1, hp.2⟩, ⟨hm, hv2, hn.1, hn.2⟩⟩

/-- C9: when the substeps of a playing tick leave the player alive and the
frame counter at or past game_time_limit * FPS with a positive limit, the
state becomes COMPLETED, and the session record then reports
completed = true regardless of kills or resources. -/
theorem time_limit_completes (es : EmotionArgs → NPCEmotion) (u : ℚ → ℚ → ℚ × ℚ)
    (inp : TickInput) (g : Game)
    (hs : g.state = GState.playing)
    (hhp : 0 < (playingTick es u inp g).player.health)
    (hlim : 0 < (playingTick es u inp g).game_time_limit)
    (hfr : (playingTick es u inp g).game_time_limit * FPS ≤ (playingTick es u inp g).frame) :
    (update es u inp g).state = GState.completed ∧
    (gameRecord (update es u inp g)).completed = true := by
  have hne : ¬ (playingTick es u inp g).player.health ≤ 0 := not_le.mpr hhp
  simp only [update, updateR, hs]
  rw [if_neg hne]
  rw [if_pos (And.intro hlim hfr)]
  exact ⟨rfl, by simp [gameRecord]⟩

/-- Witness for the time limit theorem: one idle tick on a state one frame
short of a one second limit, with zero kills and zero resources. -/
theorem time_limit_completes_witness :
    gTime.state = GState.playing ∧
    0 < (playingTick ruleBasedEmotion unit0 idleInput gTime).player.health ∧
    0 < (playingTick ruleBasedEmotion unit0 idleInput gTime).game_time_limit ∧
    (playingTick ruleBasedEmotion unit0 idleInput gTime).game_time_limit * FPS ≤
      (playingTick ruleBasedEmotion unit0 idleInput gTime).frame ∧
    gTime.player.enemies_killed = 0 ∧ gTime.player.resources_collected = 0 ∧
    (update ruleBasedEmotion unit0 idleInput gTime).state = GState.completed ∧
    (gameRecord (update ruleBasedEmotion unit0 idleInput gTime)).completed = true := by
  have h1 : gTime.state = GState.playing := rfl
  have h2 : 0 < (playingTick ruleBasedEmotion unit0 idleInput gTime).player.health := by
    with_unfolding_all decide
  have h3 : 0 < (playingTick ruleBasedEmotion unit0 idleInput gTime).game_time_limit := by
    with_unfolding_all decide
  have h4 : (playingTick ruleBasedEmotion unit0 idleInput gTime).game_time_limit * FPS ≤
      (playingTick ruleBasedEmotion unit0 idleInput gTime).frame := by
    with_unfolding_all decide
  have htlc := time_limit_completes ruleBasedEmotion unit0 idleInput gTime h1 h2 h3 h4
  exact ⟨h1, h2, h3, h4, rfl, rfl, htlc.1, htlc.2⟩

end BAM

